import Mathlib

/-!
Verification of the millis-js calendar/clock arithmetic library.

The library stores every DateTime as a single integer millisecond count
since the Unix epoch and performs all calendar work through the host
ECMAScript Date object in UTC.  We embed that machinery shallowly:

* a DateTime is its wrapped integer millisecond value (Int);
* the ECMAScript UTC calendar operations (YearFromTime, MonthFromTime,
  DateFromTime, MakeDay, MakeFullYear, Date.UTC and the setUTC methods)
  are modelled as pure functions on Int via the standard era-based
  proleptic-Gregorian conversion between day numbers and civil dates.
  All divisions in the source are Math.floor of a division by a positive
  constant, so Lean Int division (Euclidean, which coincides with floor
  division for positive divisors) is used throughout.  MakeFullYear
  (used by Date.UTC but not by setUTCFullYear) maps years 0..99 to
  1900..1999, as ECMA-262 specifies.
* the JavaScript remainder operator (sign of the dividend) is modelled
  by jsRem, Math.abs by jsAbs;
* unit-conversion reads that produce fractional numbers are modelled
  over Rat (exact values; inside the Date range the doubles involved
  here are exact for the integer arithmetic and the rounded reads);
* the model is exact-integer and ignores the 8.64e15 ms range clip of
  the host Date object.

The theorems civil_valid and dfc_roundtrip establish that the embedded
conversion is the calendar bijection (every day number maps to a valid
Gregorian date and back), anchored at the epoch by civil_epoch.
-/

namespace MillisJS

set_option maxRecDepth 100000

/-! ## Calendar core: day numbers and civil dates -/

/-- Year start day-of-era, for year-of-era p in 0..400
(shifted years starting in March). -/
def ys (p : Int) : Int := 365 * p + p / 4 - p / 100

/-- Effective year start: the last year of an era absorbs the era leap
day, so the era boundary is 146097 rather than ys 400. -/
def ysEff (p : Int) : Int := if p = 400 then 146097 else ys p

/-- Length of year-of-era p. -/
def yLen (p : Int) : Int := ysEff (p + 1) - ys p

/-- Leap-day correction used to recover the year-of-era from a
day-of-era. -/
def corr (doe : Int) : Int := doe - doe / 1460 + doe / 36524 - doe / 146096

/-- Per-year endpoint check backing the year-of-era formula. -/
def yearCheck (k : Nat) : Bool :=
  let p : Int := (k : Int)
  decide (365 * p ≤ corr (ys p)) && decide (corr (ysEff (p + 1) - 1) ≤ 365 * p + 364)

/-- Era index of a day number (day 0 is 1970-01-01; eras are 400-year
blocks starting 0000-03-01). -/
def cEra (z : Int) : Int := (z + 719468) / 146097

/-- Day within the era, in 0..146096. -/
def cDoe (z : Int) : Int := z + 719468 - cEra z * 146097

/-- Year of the era, in 0..399. -/
def cYoe (z : Int) : Int := corr (cDoe z) / 365

/-- Day within the (March-based) year. -/
def cDoy (z : Int) : Int := cDoe z - (365 * cYoe z + cYoe z / 4 - cYoe z / 100)

/-- Month index in the March-based year, 0..11. -/
def cMp (z : Int) : Int := (5 * cDoy z + 2) / 153

/-- Civil day of month of a day number (models DateFromTime). -/
def cDay (z : Int) : Int := cDoy z - (153 * cMp z + 2) / 5 + 1

/-- Civil month (1..12) of a day number (models MonthFromTime + 1). -/
def cMonth (z : Int) : Int := cMp z + (if cMp z < 10 then 3 else -9)

/-- Civil year of a day number (models YearFromTime). -/
def cYear (z : Int) : Int := cYoe z + cEra z * 400 + (if cMonth z ≤ 2 then 1 else 0)

/-- Proleptic Gregorian leap year predicate (models DaysInYear = 366). -/
def leapYear (y : Int) : Prop := y % 4 = 0 ∧ (y % 100 ≠ 0 ∨ y % 400 = 0)

instance (y : Int) : Decidable (leapYear y) := by unfold leapYear; infer_instance

/-- Number of days in month m (1..12) of year y. -/
def daysInMonthTable (y m : Int) : Int :=
  if m = 2 then (if leapYear y then 29 else 28)
  else if m = 4 ∨ m = 6 ∨ m = 9 ∨ m = 11 then 30
  else 31

/-- Number of days in year y. -/
def daysInYear (y : Int) : Int := if leapYear y then 366 else 365

/-- Shifted year used by the day-number conversion (January and
February belong to the previous March-based year). -/
def dShift (y m : Int) : Int := y - (if m ≤ 2 then 1 else 0)

/-- Era of a civil year/month pair. -/
def dEra (y m : Int) : Int := dShift y m / 400

/-- Year-of-era of a civil year/month pair. -/
def dYoe (y m : Int) : Int := dShift y m - dEra y m * 400

/-- March-based month index of a civil month. -/
def dMp (m : Int) : Int := m + (if 2 < m then -3 else 9)

/-- Day-of-(March-based)-year of a civil month/day pair. -/
def dDoy (m d : Int) : Int := (153 * dMp m + 2) / 5 + d - 1

/-- Day-of-era of a civil date. -/
def dDoe (y m d : Int) : Int :=
  dYoe y m * 365 + dYoe y m / 4 - dYoe y m / 100 + dDoy m d

/-- Day number of a civil date (inverse of the cYear/cMonth/cDay
decomposition; models MakeDay for an in-range month argument). -/
def daysFromCivil (y m d : Int) : Int := dEra y m * 146097 + dDoe y m d - 719468

/-! ## ECMAScript Date model on millisecond values -/

/-- Milliseconds per day. -/
def dayMs : Int := 86400000

/-- Day(t): day number containing millisecond t (floor division). -/
def dayNumber (t : Int) : Int := t / dayMs

/-- TimeWithinDay(t), in 0..86399999. -/
def timeInDay (t : Int) : Int := t % dayMs

/-- getUTCFullYear of a millisecond value. -/
def getUTCFullYear (t : Int) : Int := cYear (dayNumber t)

/-- getUTCMonth of a millisecond value (0-based, as in JavaScript). -/
def getUTCMonth0 (t : Int) : Int := cMonth (dayNumber t) - 1

/-- getUTCDate (day of month, 1-based) of a millisecond value. -/
def getUTCDate (t : Int) : Int := cDay (dayNumber t)

/-- MakeDay(y, m, d): day number of year y, 0-based month m (normalized
with year carry), day-of-month d (day 0 is the last day of the previous
month). -/
def makeDay (y m0 d : Int) : Int :=
  daysFromCivil (y + m0 / 12) (m0 % 12 + 1) 1 + d - 1

/-- MakeFullYear: ECMA-262 maps years 0..99 to 1900..1999 (two-digit
year compatibility).  Date.UTC applies it; setUTCFullYear does not. -/
def makeFullYear (y : Int) : Int := if 0 ≤ y ∧ y ≤ 99 then 1900 + y else y

/-- Date.UTC(y, m0, d, h, mi, s, ms) as an exact integer. -/
def utcMillis (y m0 d h mi s ms : Int) : Int :=
  makeDay (makeFullYear y) m0 d * dayMs + (((h * 60 + mi) * 60 + s) * 1000 + ms)

/-- setUTCDate: replace the day of month, keeping time within day. -/
def setUTCDate (t d : Int) : Int :=
  makeDay (getUTCFullYear t) (getUTCMonth0 t) d * dayMs + timeInDay t

/-- setUTCMonth: replace the (0-based) month, keeping day and time. -/
def setUTCMonth (t m0 : Int) : Int :=
  makeDay (getUTCFullYear t) m0 (getUTCDate t) * dayMs + timeInDay t

/-- setUTCFullYear: replace the year, keeping month, day and time; no
two-digit-year mapping here. -/
def setUTCFullYear (t y : Int) : Int :=
  makeDay y (getUTCMonth0 t) (getUTCDate t) * dayMs + timeInDay t

/-- JavaScript remainder (sign of the dividend), for positive modulus. -/
def jsRem (a b : Int) : Int := if 0 ≤ a then a % b else -((-a) % b)

/-- Math.abs on integers. -/
def jsAbs (x : Int) : Int := if 0 ≤ x then x else -x

/-! ## Library embedding (src/datetime.ts, src/duration.ts,
src/interval.ts, src/utils.ts) -/

/-- A duration object bag; absent fields default to 0 as in the source
destructuring defaults. -/
structure DurationBag where
  millis : Int := 0
  seconds : Int := 0
  minutes : Int := 0
  hours : Int := 0
  days : Int := 0
  months : Int := 0
  years : Int := 0
deriving Repr

namespace Duration

/-- Duration.from on an absolute-duration object: sum of the absolute
fields with their fixed factors. -/
def fromBag (b : DurationBag) : Int :=
  b.millis + b.seconds * 1000 + b.minutes * (60 * 1000) +
    b.hours * (60 * 60 * 1000) + b.days * (24 * 60 * 60 * 1000)

/-- Duration.between(start, end): signed difference of epoch millis. -/
def between (s e : Int) : Int := e - s

/-- Rounding policy of the unit-conversion reads: round true (nearest),
round up (ceiling), round down (floor). -/
inductive RoundMode where
  | nearest : RoundMode
  | up : RoundMode
  | down : RoundMode
deriving DecidableEq, Repr

/-- The private return helper: applies the rounding policy to the raw
quotient (Math.round is floor of x + 1/2, ties toward positive
infinity). -/
def durationReturn (q : Rat) (r : Option RoundMode) : Rat :=
  match r with
  | some RoundMode.nearest => ((⌊q + 1 / 2⌋ : Int) : Rat)
  | some RoundMode.up => ((⌈q⌉ : Int) : Rat)
  | some RoundMode.down => ((⌊q⌋ : Int) : Rat)
  | none => q

/-- Duration.seconds read. -/
def seconds (v : Int) (r : Option RoundMode) : Rat :=
  durationReturn ((v : Rat) / 1000) r

/-- Duration.minutes read. -/
def minutes (v : Int) (r : Option RoundMode) : Rat :=
  durationReturn ((v : Rat) / (60 * 1000)) r

/-- Duration.hours read. -/
def hours (v : Int) (r : Option RoundMode) : Rat :=
  durationReturn ((v : Rat) / (60 * 60 * 1000)) r

/-- Duration.days read. -/
def days (v : Int) (r : Option RoundMode) : Rat :=
  durationReturn ((v : Rat) / (24 * 60 * 60 * 1000)) r

/-- Duration.iso: ISO-8601 serialization by successive floor division,
with the JavaScript sign-preserving remainder. -/
def iso (v : Int) : String :=
  let days := v / (24 * 60 * 60 * 1000)
  let hours := jsRem v (24 * 60 * 60 * 1000) / (60 * 60 * 1000)
  let minutes := jsRem v (60 * 60 * 1000) / (60 * 1000)
  let seconds := jsRem v (60 * 1000) / 1000
  let s0 := "P"
  let s1 := if days > 0 then s0 ++ toString days ++ "D" else s0
  let s2 :=
    if hours > 0 ∨ minutes > 0 ∨ seconds > 0 then
      let t0 := s1 ++ "T"
      let t1 := if hours > 0 then t0 ++ toString hours ++ "H" else t0
      let t2 := if minutes > 0 then t1 ++ toString minutes ++ "M" else t1
      if seconds > 0 then t2 ++ toString seconds ++ "S" else t2
    else s1
  if s2 = "P" then "PT0S" else s2

end Duration

namespace DateTime

/-- The private absoluteDuration helper: Duration.from over the
absolute fields only. -/
def absoluteDuration (b : DurationBag) : Int :=
  Duration.fromBag
    { millis := b.millis, seconds := b.seconds, minutes := b.minutes,
      hours := b.hours, days := b.days }

/-- The private relativeDuration helper, translated line by line from
the source: copy the date, remember the current day of month, move to
day 1, add the years, add the months, clamp the day to the length of
the target month (computed via Date.UTC of day 0 of the next month),
and return the absolute difference to the original instant. -/
def relativeDuration (t : Int) (months years : Int) (minus : Bool) : Int :=
  let s : Int := if minus then -1 else 1
  let currentDay := getUTCDate t
  let t1 := setUTCDate t 1
  let t2 := setUTCFullYear t1 (getUTCFullYear t1 + years * s)
  let t3 := setUTCMonth t2 (getUTCMonth0 t2 + months * s)
  let daysInMonth :=
    getUTCDate (utcMillis (getUTCFullYear t3) (getUTCMonth0 t3 + 1) 0 0 0 0 0)
  let t4 := setUTCDate t3 (min currentDay daysInMonth)
  jsAbs (Duration.between t t4)

/-- DateTime.plus with a duration object. -/
def plus (t : Int) (b : DurationBag) : Int :=
  t + (relativeDuration t b.months b.years false + absoluteDuration b)

/-- DateTime.minus with a duration object. -/
def minus (t : Int) (b : DurationBag) : Int :=
  t - (relativeDuration t b.months b.years true + absoluteDuration b)

/-- The private startOf at unit day: Date.UTC of the current year,
month and day with the time fields zeroed. -/
def startOfDay (t : Int) : Int :=
  utcMillis (getUTCFullYear t) (getUTCMonth0 t) (getUTCDate t) 0 0 0 0

/-- isStartOfDay: millis equals the startOf day millis. -/
def isStartOfDay (t : Int) : Bool := decide (t = startOfDay t)

end DateTime

/-- utils range(start, end): length is the absolute difference, step is
plus or minus 1. -/
def range (a b : Int) : List Int :=
  (List.range (b - a).natAbs).map (fun i => a + (if a ≤ b then 1 else -1) * (i : Int))

namespace Interval

/-- Interval.days: enumerate one DateTime per day.  If the end is
exactly at the start of a day, that day is dropped by pulling the end
back one millisecond; the count is the floored day quotient of the
remaining span plus one. -/
def days (s e : Int) : List Int :=
  let endDate := if DateTime.isStartOfDay e then DateTime.minus e { millis := 1 } else e
  let n := Duration.between s endDate / dayMs
  (range 0 (n + 1)).map (fun day => DateTime.plus s { days := day })

end Interval

/-! ## The fallible factory paths of DateTime.from -/

/-- A JavaScript number restricted to the shapes the factory guard can
distinguish: an exact integer, NaN, or an infinity. -/
inductive JSNum where
  | num : Int → JSNum
  | nan : JSNum
  | posInf : JSNum
  | negInf : JSNum
deriving DecidableEq, Repr

/-- Number.isNaN. -/
def jsIsNaN : JSNum → Bool
  | JSNum.nan => true
  | _ => false

/-- Number.isFinite. -/
def jsIsFinite : JSNum → Bool
  | JSNum.num _ => true
  | _ => false

/-- A DateTime object as stored: the wrapped number. -/
structure DateTimeObj where
  value : JSNum
deriving DecidableEq, Repr

namespace DateTime

/-- The DateTime constructor guard composed with the numeric branch of
DateTime.from: a number input is wrapped directly; the constructor
throws exactly when Number.isNaN holds of the value. -/
def fromNumber (x : JSNum) : Except String DateTimeObj :=
  if jsIsNaN x then Except.error "Invalid date time" else Except.ok ⟨x⟩

/-- DateTime.from on a component bag with year and dayOfYear: build
Date.UTC(year, 0, 1, h, mi, s, ms), then setUTCDate(dayOfYear), and
reject when the year read back differs from the stated year. -/
def fromOrdinal (year dayOfYear h mi s ms : Int) : Except String Int :=
  let date := utcMillis year 0 1 h mi s ms
  let date2 := setUTCDate date dayOfYear
  if getUTCFullYear date2 ≠ year then Except.error "Invalid day of year"
  else Except.ok date2

/-- DateTime.from on a component bag with year, month and dayOfMonth:
build Date.UTC(year, month - 1, dayOfMonth, h, mi, s, ms) and reject
when any of the three calendar components reads back differently. -/
def fromComponents (year month dayOfMonth h mi s ms : Int) : Except String Int :=
  let date := utcMillis year (month - 1) dayOfMonth h mi s ms
  if getUTCFullYear date ≠ year ∨ getUTCMonth0 date ≠ month - 1 ∨
      getUTCDate date ≠ dayOfMonth then
    Except.error "Invalid date components"
  else Except.ok date

end DateTime


/-! ## Specification-side descriptions of the relative move -/

/-- Month length as the implementation computes it: Date.UTC applies
MakeFullYear to the year before reading back the day of month. -/
def quirkDim (y m : Int) : Int := daysInMonthTable (makeFullYear y) m

/-- Target year of a relative (months, years) move from t with sign s:
years are added to the year field, then the month field is normalized
with year carry. -/
def relYear (t months years s : Int) : Int :=
  getUTCFullYear t + years * s + (getUTCMonth0 t + months * s) / 12

/-- Target month (1..12) of a relative move. -/
def relMonth (t months s : Int) : Int := (getUTCMonth0 t + months * s) % 12 + 1

/-- Target day of month: the original day clamped to the computed
length of the target month. -/
def relDay (t months years s : Int) : Int :=
  min (getUTCDate t) (quirkDim (relYear t months years s) (relMonth t months s))

/-- The clamped target instant of a relative move: target civil date at
the original time of day. -/
def relTarget (t months years s : Int) : Int :=
  daysFromCivil (relYear t months years s) (relMonth t months s)
    (relDay t months years s) * dayMs + timeInDay t

/-- The combined relative move as the specification describes it: years
added to the year field, months added with calendar normalization, and
one final clamp of the day of month to the true length of the target
month. -/
def combinedTarget (t months years s : Int) : Int :=
  daysFromCivil (relYear t months years s) (relMonth t months s)
    (min (getUTCDate t)
      (daysInMonthTable (relYear t months years s) (relMonth t months s))) *
    dayMs + timeInDay t

/-- The 1-based month getter (the library month()). -/
def monthOf (t : Int) : Int := getUTCMonth0 t + 1

/-- Year of the calendar month immediately following the month of t. -/
def nextMonthYear (t : Int) : Int :=
  if monthOf t = 12 then getUTCFullYear t + 1 else getUTCFullYear t

/-- The calendar month immediately following the month of t. -/
def nextMonth (t : Int) : Int := if monthOf t = 12 then 1 else monthOf t + 1

/-- The instant lies on February 29 of year 0 (the one day whose
implementation-computed month length differs from the calendar). -/
def isFeb29Year0 (t : Int) : Prop :=
  getUTCFullYear t = 0 ∧ monthOf t = 2 ∧ getUTCDate t = 29

instance (t : Int) : Decidable (isFeb29Year0 t) := by
  unfold isFeb29Year0; infer_instance

/-! ## Concrete instants used in examples and counterexamples -/

def jan1of2024 : Int := daysFromCivil 2024 1 1 * dayMs
def jan2of2024 : Int := daysFromCivil 2024 1 2 * dayMs
def jan2of2024End : Int := daysFromCivil 2024 1 2 * dayMs + 86399999
def jan31of2024 : Int := daysFromCivil 2024 1 31 * dayMs
def feb29of2024 : Int := daysFromCivil 2024 2 29 * dayMs
def mar31of2024 : Int := daysFromCivil 2024 3 31 * dayMs
def jan31of0000 : Int := daysFromCivil 0 1 31 * dayMs
def feb29of0000 : Int := daysFromCivil 0 2 29 * dayMs
def feb29of0004 : Int := daysFromCivil 4 2 29 * dayMs
def jan1of2024T2300 : Int := daysFromCivil 2024 1 1 * dayMs + 23 * 3600000
def jan2of2024T0100 : Int := daysFromCivil 2024 1 2 * dayMs + 3600000

/-! ## Calendar core lemmas -/

theorem corr_step (a : Int) : corr a ≤ corr (a + 1) := by
  simp only [corr]
  omega

theorem corr_mono {a b : Int} (h : a ≤ b) : corr a ≤ corr b := by
  exact Int.le_induction (P := fun n => corr a ≤ corr n) (le_refl _)
    (fun n _ ih => le_trans ih (corr_step n)) b h

set_option maxRecDepth 4000 in
theorem yearCheck_all : (List.range 400).all yearCheck = true := by decide

theorem yearCheck_spec (p : Int) (hp0 : 0 ≤ p) (hp1 : p ≤ 399) :
    365 * p ≤ corr (ys p) ∧ corr (ysEff (p + 1) - 1) ≤ 365 * p + 364 := by
  have hk : ∃ k : Nat, (k : Int) = p ∧ k < 400 := ⟨p.toNat, by omega, by omega⟩
  obtain ⟨k, hk1, hk2⟩ := hk
  have hall := List.all_eq_true.mp yearCheck_all k (List.mem_range.mpr hk2)
  simp only [yearCheck, Bool.and_eq_true, decide_eq_true_eq, hk1] at hall
  exact hall

theorem ys_tile (doe : Int) (h0 : 0 ≤ doe) (h1 : doe < 146097) :
    ∃ p, 0 ≤ p ∧ p ≤ 399 ∧ ys p ≤ doe ∧ doe < ysEff (p + 1) := by
  have step : ∀ n : Nat, (n : Int) ≤ 400 → doe < ysEff (n : Int) →
      ∃ p, 0 ≤ p ∧ p ≤ 399 ∧ ys p ≤ doe ∧ doe < ysEff (p + 1) := by
    intro n
    induction n with
    | zero =>
      intro _ h
      simp only [ysEff, ys] at h
      omega
    | succ n ih =>
      intro hn h
      push_cast at h hn
      by_cases hle : ys (n : Int) ≤ doe
      · exact ⟨n, Int.ofNat_nonneg n, by omega, hle, by exact_mod_cast h⟩
      · refine ih (by exact_mod_cast by omega) ?_
        have hne : ((n : Int)) ≠ 400 := by omega
        simp only [ysEff, if_neg hne]
        omega
  have h400 : ysEff ((400 : Nat) : Int) = 146097 := by norm_num [ysEff]
  exact step 400 (by norm_num) (by rw [h400]; exact h1)

theorem yLen_leap (p : Int) (hp0 : 0 ≤ p) (hp1 : p ≤ 399) :
    (leapYear (p + 1) → yLen p = 366) ∧ (¬ leapYear (p + 1) → yLen p = 365) := by
  simp only [yLen, ysEff, ys, leapYear]
  split_ifs <;> omega

theorem doe_bounds (z : Int) : 0 ≤ cDoe z ∧ cDoe z < 146097 := by
  have h1 : cEra z = (z + 719468) / 146097 := rfl
  have h2 : cDoe z = z + 719468 - cEra z * 146097 := rfl
  omega

theorem leapYear_shift (y k : Int) : leapYear (y + 400 * k) ↔ leapYear y := by
  unfold leapYear
  omega

theorem yLen_values (p : Int) (hp0 : 0 ≤ p) (hp1 : p ≤ 399) :
    yLen p = 365 ∨ yLen p = 366 := by
  simp only [yLen, ysEff, ys]
  split_ifs <;> omega

/-- Every day number decomposes into a valid Gregorian date, and
daysFromCivil maps that date back to the day number. -/
theorem civil_valid (z : Int) :
    1 ≤ cMonth z ∧ cMonth z ≤ 12 ∧ 1 ≤ cDay z ∧
    cDay z ≤ daysInMonthTable (cYear z) (cMonth z) ∧
    daysFromCivil (cYear z) (cMonth z) (cDay z) = z := by
  obtain ⟨hdoe0, hdoe1⟩ := doe_bounds z
  obtain ⟨p, hp0, hp1, hp2, hp3⟩ := ys_tile (cDoe z) hdoe0 hdoe1
  have hyoe : cYoe z = p := by
    have hc1 : corr (ys p) ≤ corr (cDoe z) := corr_mono hp2
    have hc2 : corr (cDoe z) ≤ corr (ysEff (p + 1) - 1) := corr_mono (by omega)
    obtain ⟨hs1, hs2⟩ := yearCheck_spec p hp0 hp1
    have hy : cYoe z = corr (cDoe z) / 365 := rfl
    omega
  subst p
  have hys : ys (cYoe z) = 365 * cYoe z + cYoe z / 4 - cYoe z / 100 := rfl
  have hylen : ysEff (cYoe z + 1) = ys (cYoe z) + yLen (cYoe z) := by
    simp only [yLen]; omega
  have hdoy : cDoy z = cDoe z - ys (cYoe z) ∧ 0 ≤ cDoy z ∧
      cDoy z ≤ yLen (cYoe z) - 1 := by
    have h1 : cDoy z = cDoe z - (365 * cYoe z + cYoe z / 4 - cYoe z / 100) := rfl
    omega
  have hyl365 : yLen (cYoe z) = 365 ∨ yLen (cYoe z) = 366 := yLen_values _ hp0 hp1
  have hmp : cMp z = (5 * cDoy z + 2) / 153 := rfl
  have hday : cDay z = cDoy z - (153 * cMp z + 2) / 5 + 1 := rfl
  have hmon : cMonth z = cMp z + (if cMp z < 10 then 3 else -9) := rfl
  have hyr : cYear z = cYoe z + cEra z * 400 + (if cMonth z ≤ 2 then 1 else 0) := rfl
  have hmpb : 0 ≤ cMp z ∧ cMp z ≤ 11 := by omega
  have hz : z = cEra z * 146097 + cDoe z - 719468 := by
    have h2 : cDoe z = z + 719468 - cEra z * 146097 := rfl
    omega
  have hdayb : 1 ≤ cDay z := by omega
  have e1 : dShift (cYear z) (cMonth z) =
      cYear z - (if cMonth z ≤ 2 then 1 else 0) := rfl
  have e2 : dEra (cYear z) (cMonth z) = dShift (cYear z) (cMonth z) / 400 := rfl
  have e3 : dYoe (cYear z) (cMonth z) =
      dShift (cYear z) (cMonth z) - dEra (cYear z) (cMonth z) * 400 := rfl
  have e4 : dMp (cMonth z) = cMonth z + (if 2 < cMonth z then -3 else 9) := rfl
  have e5 : dDoy (cMonth z) (cDay z) =
      (153 * dMp (cMonth z) + 2) / 5 + cDay z - 1 := rfl
  have e6 : dDoe (cYear z) (cMonth z) (cDay z) =
      dYoe (cYear z) (cMonth z) * 365 + dYoe (cYear z) (cMonth z) / 4 -
        dYoe (cYear z) (cMonth z) / 100 + dDoy (cMonth z) (cDay z) := rfl
  have e7 : daysFromCivil (cYear z) (cMonth z) (cDay z) =
      dEra (cYear z) (cMonth z) * 146097 +
        dDoe (cYear z) (cMonth z) (cDay z) - 719468 := rfl
  by_cases hsp : cMp z < 10
  · -- months March (mp = 0) .. December (mp = 9); month = mp + 3
    have hm : cMonth z = cMp z + 3 := by rw [hmon, if_pos hsp]
    have hm2 : ¬ cMonth z ≤ 2 := by omega
    rw [if_neg hm2] at hyr e1
    have e2v : dEra (cYear z) (cMonth z) = cEra z := by omega
    have e3v : dYoe (cYear z) (cMonth z) = cYoe z := by omega
    rw [e3v] at e6
    have hmpe : dMp (cMonth z) = cMp z := by
      rw [e4, if_pos (by omega : (2:Int) < cMonth z)]; omega
    rw [hmpe] at e5
    refine ⟨by omega, by omega, hdayb, ?_, by omega⟩
    simp only [daysInMonthTable]
    split_ifs <;> omega
  · -- January (mp = 10) and February (mp = 11); month = mp - 9
    have hm : cMonth z = cMp z - 9 := by rw [hmon, if_neg hsp]; ring
    have hm2 : cMonth z ≤ 2 := by omega
    rw [if_pos hm2] at hyr e1
    have e2v : dEra (cYear z) (cMonth z) = cEra z := by omega
    have e3v : dYoe (cYear z) (cMonth z) = cYoe z := by omega
    rw [e3v] at e6
    have hmpe : dMp (cMonth z) = cMp z := by
      rw [e4, if_neg (by omega : ¬ (2:Int) < cMonth z)]; omega
    rw [hmpe] at e5
    refine ⟨by omega, by omega, hdayb, ?_, by omega⟩
    have hleap := yLen_leap (cYoe z) hp0 hp1
    have hshift : leapYear (cYear z) ↔ leapYear (cYoe z + 1) := by
      have hv : cYear z = (cYoe z + 1) + 400 * cEra z := by omega
      rw [hv]
      exact leapYear_shift (cYoe z + 1) (cEra z)
    rcases (by omega : cMp z = 10 ∨ cMp z = 11) with h10 | h11
    · -- January
      have hmv : cMonth z = 1 := by omega
      simp only [daysInMonthTable, hmv]
      norm_num
      omega
    · -- February
      have hmv : cMonth z = 2 := by omega
      simp only [daysInMonthTable, hmv, if_pos rfl]
      by_cases hL : leapYear (cYoe z + 1)
      · rw [if_pos (hshift.mpr hL)]
        have h366 := hleap.1 hL
        omega
      · rw [if_neg (fun hc => hL (hshift.mp hc))]
        have h365 := hleap.2 hL
        omega

theorem dfc_day_affine (y m d : Int) :
    daysFromCivil y m d = daysFromCivil y m 1 + (d - 1) := by
  have e1 : daysFromCivil y m d =
      dEra y m * 146097 + dDoe y m d - 719468 := rfl
  have e2 : daysFromCivil y m 1 =
      dEra y m * 146097 + dDoe y m 1 - 719468 := rfl
  have e3 : dDoe y m d = dYoe y m * 365 + dYoe y m / 4 - dYoe y m / 100 + dDoy m d := rfl
  have e4 : dDoe y m 1 = dYoe y m * 365 + dYoe y m / 4 - dYoe y m / 100 + dDoy m 1 := rfl
  have e5 : dDoy m d = (153 * dMp m + 2) / 5 + d - 1 := rfl
  have e6 : dDoy m 1 = (153 * dMp m + 2) / 5 + 1 - 1 := rfl
  omega

theorem dfc_month_step (y m : Int) (h1 : 1 ≤ m) (h2 : m ≤ 11) :
    daysFromCivil y (m + 1) 1 = daysFromCivil y m 1 + daysInMonthTable y m := by
  interval_cases m <;>
    simp only [daysFromCivil, dDoe, dYoe, dEra, dShift, dMp, dDoy,
      daysInMonthTable, leapYear] <;>
    norm_num <;> (try split_ifs) <;> omega

theorem dfc_year_step (y : Int) :
    daysFromCivil (y + 1) 1 1 = daysFromCivil y 12 1 + 31 := by
  simp only [daysFromCivil, dDoe, dYoe, dEra, dShift, dMp, dDoy, daysInMonthTable]
  norm_num
  omega

theorem dfc_jan_step (y : Int) :
    365 ≤ daysFromCivil (y + 1) 1 1 - daysFromCivil y 1 1 ∧
    daysFromCivil (y + 1) 1 1 - daysFromCivil y 1 1 ≤ 366 := by
  simp only [daysFromCivil, dDoe, dYoe, dEra, dShift, dMp, dDoy]
  norm_num
  omega

theorem dim_bounds (y m : Int) :
    28 ≤ daysInMonthTable y m ∧ daysInMonthTable y m ≤ 31 := by
  simp only [daysInMonthTable]
  split_ifs <;> omega

theorem dfc_jan_mono {y y2 : Int} (h : y ≤ y2) :
    daysFromCivil y 1 1 ≤ daysFromCivil y2 1 1 := by
  refine Int.le_induction
    (P := fun n => daysFromCivil y 1 1 ≤ daysFromCivil n 1 1) (le_refl _) ?_ y2 h
  intro n _ ih
  have := dfc_jan_step n
  omega

theorem month_start_bounds (y m : Int) (h1 : 1 ≤ m) (h2 : m ≤ 12) :
    daysFromCivil y 1 1 ≤ daysFromCivil y m 1 ∧
    daysFromCivil y m 1 + daysInMonthTable y m ≤ daysFromCivil (y + 1) 1 1 := by
  have s1 := dfc_month_step y 1 (by omega) (by omega)
  have s2 := dfc_month_step y 2 (by omega) (by omega)
  have s3 := dfc_month_step y 3 (by omega) (by omega)
  have s4 := dfc_month_step y 4 (by omega) (by omega)
  have s5 := dfc_month_step y 5 (by omega) (by omega)
  have s6 := dfc_month_step y 6 (by omega) (by omega)
  have s7 := dfc_month_step y 7 (by omega) (by omega)
  have s8 := dfc_month_step y 8 (by omega) (by omega)
  have s9 := dfc_month_step y 9 (by omega) (by omega)
  have s10 := dfc_month_step y 10 (by omega) (by omega)
  have s11 := dfc_month_step y 11 (by omega) (by omega)
  have sy := dfc_year_step y
  norm_num at s1 s2 s3 s4 s5 s6 s7 s8 s9 s10 s11
  have b1 := dim_bounds y 1
  have b2 := dim_bounds y 2
  have b3 := dim_bounds y 3
  have b4 := dim_bounds y 4
  have b5 := dim_bounds y 5
  have b6 := dim_bounds y 6
  have b7 := dim_bounds y 7
  have b8 := dim_bounds y 8
  have b9 := dim_bounds y 9
  have b10 := dim_bounds y 10
  have b11 := dim_bounds y 11
  have b12 := dim_bounds y 12
  have h12 : daysInMonthTable y 12 = 31 := by norm_num [daysInMonthTable]
  interval_cases m <;> omega

theorem month_start_lt (y m m2 : Int) (h1 : 1 ≤ m) (h2 : m < m2) (h3 : m2 ≤ 12) :
    daysFromCivil y m 1 + daysInMonthTable y m ≤ daysFromCivil y m2 1 := by
  have s1 := dfc_month_step y 1 (by omega) (by omega)
  have s2 := dfc_month_step y 2 (by omega) (by omega)
  have s3 := dfc_month_step y 3 (by omega) (by omega)
  have s4 := dfc_month_step y 4 (by omega) (by omega)
  have s5 := dfc_month_step y 5 (by omega) (by omega)
  have s6 := dfc_month_step y 6 (by omega) (by omega)
  have s7 := dfc_month_step y 7 (by omega) (by omega)
  have s8 := dfc_month_step y 8 (by omega) (by omega)
  have s9 := dfc_month_step y 9 (by omega) (by omega)
  have s10 := dfc_month_step y 10 (by omega) (by omega)
  have s11 := dfc_month_step y 11 (by omega) (by omega)
  norm_num at s1 s2 s3 s4 s5 s6 s7 s8 s9 s10 s11
  have b1 := dim_bounds y 1
  have b2 := dim_bounds y 2
  have b3 := dim_bounds y 3
  have b4 := dim_bounds y 4
  have b5 := dim_bounds y 5
  have b6 := dim_bounds y 6
  have b7 := dim_bounds y 7
  have b8 := dim_bounds y 8
  have b9 := dim_bounds y 9
  have b10 := dim_bounds y 10
  have b11 := dim_bounds y 11
  have hm2lo : 2 ≤ m2 := by omega
  interval_cases m2 <;> interval_cases m <;> omega

/-- Strict monotonicity of daysFromCivil across years. -/
theorem dfc_lt_year {y m d y2 m2 d2 : Int}
    (hm1 : 1 ≤ m) (hm2 : m ≤ 12) (hd1 : 1 ≤ d) (hd2 : d ≤ daysInMonthTable y m)
    (hm3 : 1 ≤ m2) (hm4 : m2 ≤ 12) (hd3 : 1 ≤ d2) (hy : y < y2) :
    daysFromCivil y m d < daysFromCivil y2 m2 d2 := by
  have a1 := dfc_day_affine y m d
  have a2 := dfc_day_affine y2 m2 d2
  have q1 := month_start_bounds y m hm1 hm2
  have q2 := month_start_bounds y2 m2 hm3 hm4
  have q3 := dfc_jan_mono (by omega : y + 1 ≤ y2)
  omega

/-- Strict monotonicity of daysFromCivil across months of one year. -/
theorem dfc_lt_month {y m d m2 d2 : Int}
    (hm1 : 1 ≤ m) (hd1 : 1 ≤ d) (hd2 : d ≤ daysInMonthTable y m)
    (hm4 : m2 ≤ 12) (hd3 : 1 ≤ d2) (hmm : m < m2) :
    daysFromCivil y m d < daysFromCivil y m2 d2 := by
  have a1 := dfc_day_affine y m d
  have a2 := dfc_day_affine y m2 d2
  have q1 := month_start_lt y m m2 hm1 hmm hm4
  omega

/-- daysFromCivil is injective on valid dates. -/
theorem dfc_inj {y m d y2 m2 d2 : Int}
    (hm1 : 1 ≤ m) (hm2 : m ≤ 12) (hd1 : 1 ≤ d) (hd2 : d ≤ daysInMonthTable y m)
    (hm3 : 1 ≤ m2) (hm4 : m2 ≤ 12) (hd3 : 1 ≤ d2) (hd4 : d2 ≤ daysInMonthTable y2 m2)
    (h : daysFromCivil y m d = daysFromCivil y2 m2 d2) :
    y = y2 ∧ m = m2 ∧ d = d2 := by
  rcases lt_trichotomy y y2 with hy | hy | hy
  · exact absurd h (by have := dfc_lt_year hm1 hm2 hd1 hd2 hm3 hm4 hd3 hy; omega)
  · subst hy
    rcases lt_trichotomy m m2 with hm | hm | hm
    · exact absurd h (by have := dfc_lt_month hm1 hd1 hd2 hm4 hd3 hm; omega)
    · subst hm
      have a1 := dfc_day_affine y m d
      have a2 := dfc_day_affine y m d2
      omega
    · exact absurd h (by have := dfc_lt_month hm3 hd3 hd4 hm2 hd1 hm; omega)
  · exact absurd h (by have := dfc_lt_year hm3 hm4 hd3 hd4 hm1 hm2 hd1 hy; omega)

/-- The civil decomposition of a valid date is that date. -/
theorem dfc_roundtrip {y m d : Int}
    (hm1 : 1 ≤ m) (hm2 : m ≤ 12) (hd1 : 1 ≤ d) (hd2 : d ≤ daysInMonthTable y m) :
    cYear (daysFromCivil y m d) = y ∧ cMonth (daysFromCivil y m d) = m ∧
    cDay (daysFromCivil y m d) = d := by
  obtain ⟨v1, v2, v3, v4, v5⟩ := civil_valid (daysFromCivil y m d)
  have := dfc_inj v1 v2 v3 v4 hm1 hm2 hd1 hd2 v5
  omega

/-- Anchor: day number 0 is 1970-01-01. -/
theorem civil_epoch : cYear 0 = 1970 ∧ cMonth 0 = 1 ∧ cDay 0 = 1 := by
  refine ⟨?_, ?_, ?_⟩ <;> decide

/-! ## Millisecond-level bridge lemmas -/

theorem day_split (t : Int) :
    t = dayNumber t * dayMs + timeInDay t ∧ 0 ≤ timeInDay t ∧ timeInDay t < dayMs := by
  show t = dayNumber t * 86400000 + timeInDay t ∧ 0 ≤ timeInDay t ∧
    timeInDay t < 86400000
  have h1 : dayNumber t = t / 86400000 := rfl
  have h2 : timeInDay t = t % 86400000 := rfl
  omega

theorem day_struct {k r : Int} (hr0 : 0 ≤ r) (hr1 : r < dayMs) :
    dayNumber (k * dayMs + r) = k ∧ timeInDay (k * dayMs + r) = r := by
  have hr1i : r < 86400000 := hr1
  show dayNumber (k * 86400000 + r) = k ∧ timeInDay (k * 86400000 + r) = r
  have h1 : dayNumber (k * 86400000 + r) = (k * 86400000 + r) / 86400000 := rfl
  have h2 : timeInDay (k * 86400000 + r) = (k * 86400000 + r) % 86400000 := rfl
  omega

/-- The field accessors of a millisecond value built from a valid civil
date and a time within day. -/
theorem getters_struct {y m d r : Int}
    (hm1 : 1 ≤ m) (hm2 : m ≤ 12) (hd1 : 1 ≤ d) (hd2 : d ≤ daysInMonthTable y m)
    (hr0 : 0 ≤ r) (hr1 : r < dayMs) :
    getUTCFullYear (daysFromCivil y m d * dayMs + r) = y ∧
    getUTCMonth0 (daysFromCivil y m d * dayMs + r) = m - 1 ∧
    getUTCDate (daysFromCivil y m d * dayMs + r) = d ∧
    timeInDay (daysFromCivil y m d * dayMs + r) = r := by
  obtain ⟨hk, hr⟩ := day_struct (k := daysFromCivil y m d) hr0 hr1
  obtain ⟨hy, hm, hd⟩ := dfc_roundtrip hm1 hm2 hd1 hd2
  have g1 : getUTCFullYear (daysFromCivil y m d * dayMs + r) =
      cYear (dayNumber (daysFromCivil y m d * dayMs + r)) := rfl
  have g2 : getUTCMonth0 (daysFromCivil y m d * dayMs + r) =
      cMonth (dayNumber (daysFromCivil y m d * dayMs + r)) - 1 := rfl
  have g3 : getUTCDate (daysFromCivil y m d * dayMs + r) =
      cDay (dayNumber (daysFromCivil y m d * dayMs + r)) := rfl
  rw [hk] at g1 g2 g3
  rw [g1, g2, g3, hy, hm, hd]
  exact ⟨rfl, rfl, rfl, hr⟩

/-- MakeDay with an in-range month argument needs no normalization. -/
theorem makeDay_norm (y m0 d : Int) (h0 : 0 ≤ m0) (h1 : m0 ≤ 11) :
    makeDay y m0 d = daysFromCivil y (m0 + 1) 1 + d - 1 := by
  have e : makeDay y m0 d = daysFromCivil (y + m0 / 12) (m0 % 12 + 1) 1 + d - 1 := rfl
  have h2 : y + m0 / 12 = y := by omega
  have h3 : m0 % 12 = m0 := by omega
  rw [e, h2, h3]

/-- setUTCDate on a structured value replaces the day. -/
theorem setUTCDate_struct {y m d r : Int} (d2 : Int)
    (hm1 : 1 ≤ m) (hm2 : m ≤ 12) (hd1 : 1 ≤ d) (hd2 : d ≤ daysInMonthTable y m)
    (hr0 : 0 ≤ r) (hr1 : r < dayMs) :
    setUTCDate (daysFromCivil y m d * dayMs + r) d2 =
      (daysFromCivil y m 1 + (d2 - 1)) * dayMs + r := by
  obtain ⟨g1, g2, g3, g4⟩ := getters_struct hm1 hm2 hd1 hd2 hr0 hr1
  have e : setUTCDate (daysFromCivil y m d * dayMs + r) d2 =
      makeDay (getUTCFullYear (daysFromCivil y m d * dayMs + r))
        (getUTCMonth0 (daysFromCivil y m d * dayMs + r)) d2 * dayMs +
        timeInDay (daysFromCivil y m d * dayMs + r) := rfl
  rw [e, g1, g2, g4, makeDay_norm y (m - 1) d2 (by omega) (by omega)]
  have h3 : m - 1 + 1 = m := by omega
  rw [h3]
  ring_nf

/-- setUTCFullYear on a structured value replaces the year, keeping the
month and day fields. -/
theorem setUTCFullYear_struct {y m d r : Int} (y2 : Int)
    (hm1 : 1 ≤ m) (hm2 : m ≤ 12) (hd1 : 1 ≤ d) (hd2 : d ≤ daysInMonthTable y m)
    (hr0 : 0 ≤ r) (hr1 : r < dayMs) :
    setUTCFullYear (daysFromCivil y m d * dayMs + r) y2 =
      (daysFromCivil y2 m 1 + (d - 1)) * dayMs + r := by
  obtain ⟨g1, g2, g3, g4⟩ := getters_struct hm1 hm2 hd1 hd2 hr0 hr1
  have e : setUTCFullYear (daysFromCivil y m d * dayMs + r) y2 =
      makeDay y2 (getUTCMonth0 (daysFromCivil y m d * dayMs + r))
        (getUTCDate (daysFromCivil y m d * dayMs + r)) * dayMs +
        timeInDay (daysFromCivil y m d * dayMs + r) := rfl
  rw [e, g2, g3, g4, makeDay_norm y2 (m - 1) d (by omega) (by omega)]
  have h3 : m - 1 + 1 = m := by omega
  rw [h3]
  ring_nf

/-- setUTCMonth on a structured value replaces the month with full
calendar normalization, keeping the day field. -/
theorem setUTCMonth_struct {y m d r : Int} (m0 : Int)
    (hm1 : 1 ≤ m) (hm2 : m ≤ 12) (hd1 : 1 ≤ d) (hd2 : d ≤ daysInMonthTable y m)
    (hr0 : 0 ≤ r) (hr1 : r < dayMs) :
    setUTCMonth (daysFromCivil y m d * dayMs + r) m0 =
      (daysFromCivil (y + m0 / 12) (m0 % 12 + 1) 1 + (d - 1)) * dayMs + r := by
  obtain ⟨g1, g2, g3, g4⟩ := getters_struct hm1 hm2 hd1 hd2 hr0 hr1
  have e : setUTCMonth (daysFromCivil y m d * dayMs + r) m0 =
      makeDay (getUTCFullYear (daysFromCivil y m d * dayMs + r)) m0
        (getUTCDate (daysFromCivil y m d * dayMs + r)) * dayMs +
        timeInDay (daysFromCivil y m d * dayMs + r) := rfl
  rw [e, g1, g3, g4]
  have e2 : makeDay y m0 d = daysFromCivil (y + m0 / 12) (m0 % 12 + 1) 1 + d - 1 := rfl
  rw [e2]
  ring_nf

/-- The month length the implementation reads from Date.UTC of day 0 of
the following month is quirkDim. -/
theorem dim_compute (y m : Int) (hm1 : 1 ≤ m) (hm2 : m ≤ 12) :
    getUTCDate (utcMillis y m 0 0 0 0 0) = quirkDim y m := by
  have hdimb := dim_bounds (makeFullYear y) m
  have hmd : makeDay (makeFullYear y) m 0 =
      daysFromCivil (makeFullYear y) m (daysInMonthTable (makeFullYear y) m) := by
    by_cases h12 : m = 12
    · subst h12
      have e2 : makeDay (makeFullYear y) 12 0 =
          daysFromCivil (makeFullYear y + 12 / 12) (12 % 12 + 1) 1 + 0 - 1 := rfl
      have h1 : makeFullYear y + 12 / 12 = makeFullYear y + 1 := by norm_num
      have h2 : (12 : Int) % 12 + 1 = 1 := by norm_num
      rw [h1, h2] at e2
      have sy := dfc_year_step (makeFullYear y)
      have ha := dfc_day_affine (makeFullYear y) 12 (daysInMonthTable (makeFullYear y) 12)
      have ht : daysInMonthTable (makeFullYear y) 12 = 31 := by
        simp only [daysInMonthTable]
        norm_num
      omega
    · have e2 := makeDay_norm (makeFullYear y) m 0 (by omega) (by omega)
      have s := dfc_month_step (makeFullYear y) m (by omega) (by omega)
      have ha := dfc_day_affine (makeFullYear y) m (daysInMonthTable (makeFullYear y) m)
      omega
  have e0 : utcMillis y m 0 0 0 0 0 =
      makeDay (makeFullYear y) m 0 * dayMs + (((0 * 60 + 0) * 60 + 0) * 1000 + 0) := rfl
  have htp : (((0 * 60 + 0) * 60 + 0) * 1000 + 0 : Int) = 0 := by norm_num
  rw [htp, hmd] at e0
  rw [e0]
  exact (getters_struct hm1 hm2 (by omega) (le_refl _) (le_refl 0)
    (by decide : (0 : Int) < dayMs)).2.2.1

/-- Away from February of year 0, the implementation month length is
the true month length; at February of year 0 it is 28 instead of 29. -/
theorem quirkDim_eq (y m : Int) (hq : ¬ (y = 0 ∧ m = 2)) :
    quirkDim y m = daysInMonthTable y m := by
  simp only [quirkDim, makeFullYear, daysInMonthTable, leapYear]
  split_ifs <;> omega

theorem quirkDim_le (y m : Int) : quirkDim y m ≤ daysInMonthTable y m := by
  simp only [quirkDim, makeFullYear, daysInMonthTable, leapYear]
  split_ifs <;> omega

theorem quirkDim_bounds (y m : Int) : 28 ≤ quirkDim y m ∧ quirkDim y m ≤ 31 := by
  simp only [quirkDim]
  exact dim_bounds _ _

/-- quirkDim at February of year 0 is 28 (Date.UTC reads year 1900). -/
theorem quirkDim_y0_feb : quirkDim 0 2 = 28 := by decide


/-! ## Characterization of relativeDuration -/

/-- relativeDuration on a structured value: the computed distance is
the absolute difference between the original instant and the clamped
target instant (years into the year field, months with calendar
normalization, day clamped to the implementation month length). -/
theorem relativeDuration_struct (y m d r months years : Int) (b : Bool)
    (hm1 : 1 ≤ m) (hm2 : m ≤ 12) (hd1 : 1 ≤ d) (hd2 : d ≤ daysInMonthTable y m)
    (hr0 : 0 ≤ r) (hr1 : r < dayMs) :
    DateTime.relativeDuration (daysFromCivil y m d * dayMs + r) months years b =
      jsAbs (daysFromCivil
          (y + years * (if b then -1 else 1) +
            (m - 1 + months * (if b then -1 else 1)) / 12)
          ((m - 1 + months * (if b then -1 else 1)) % 12 + 1)
          (min d (quirkDim
            (y + years * (if b then -1 else 1) +
              (m - 1 + months * (if b then -1 else 1)) / 12)
            ((m - 1 + months * (if b then -1 else 1)) % 12 + 1))) * dayMs + r -
        (daysFromCivil y m d * dayMs + r)) := by
  simp only [DateTime.relativeDuration, Duration.between]
  generalize (if b then (-1 : Int) else 1) = S
  have hdim1 := dim_bounds y m
  -- step 1: the remembered current day and the move to day 1
  obtain ⟨g1, g2, g3, g4⟩ := getters_struct hm1 hm2 hd1 hd2 hr0 hr1
  rw [g3]
  have r1 : setUTCDate (daysFromCivil y m d * dayMs + r) 1 =
      daysFromCivil y m 1 * dayMs + r := by
    rw [setUTCDate_struct 1 hm1 hm2 hd1 hd2 hr0 hr1]
    ring
  rw [r1]
  -- step 2: setUTCFullYear to the target year
  obtain ⟨p1, p2, p3, p4⟩ := getters_struct hm1 hm2 (by omega : (1:Int) ≤ 1)
    (by omega : (1:Int) ≤ daysInMonthTable y m) hr0 hr1
  rw [p1]
  have r2 : setUTCFullYear (daysFromCivil y m 1 * dayMs + r) (y + years * S) =
      daysFromCivil (y + years * S) m 1 * dayMs + r := by
    rw [setUTCFullYear_struct (y + years * S) hm1 hm2 (by omega)
      (by omega : (1:Int) ≤ daysInMonthTable y m) hr0 hr1]
    ring
  rw [r2]
  -- step 3: setUTCMonth to the target month, with year carry
  have hdim2 := dim_bounds (y + years * S) m
  obtain ⟨q1, q2, q3, q4⟩ := getters_struct (y := y + years * S) hm1 hm2
    (by omega : (1:Int) ≤ 1) (by omega) hr0 hr1
  rw [q2]
  have r3 : setUTCMonth (daysFromCivil (y + years * S) m 1 * dayMs + r)
      (m - 1 + months * S) =
      daysFromCivil (y + years * S + (m - 1 + months * S) / 12)
        ((m - 1 + months * S) % 12 + 1) 1 * dayMs + r := by
    rw [setUTCMonth_struct (m - 1 + months * S) hm1 hm2 (by omega)
      (by omega : (1:Int) ≤ daysInMonthTable (y + years * S) m) hr0 hr1]
    ring
  rw [r3]
  -- step 4: read the components of the target month and its length
  have hm3a : 1 ≤ (m - 1 + months * S) % 12 + 1 := by omega
  have hm3b : (m - 1 + months * S) % 12 + 1 ≤ 12 := by omega
  have hdim3 := dim_bounds (y + years * S + (m - 1 + months * S) / 12)
    ((m - 1 + months * S) % 12 + 1)
  obtain ⟨w1, w2, w3, w4⟩ := getters_struct
    (y := y + years * S + (m - 1 + months * S) / 12) hm3a hm3b
    (by omega : (1:Int) ≤ 1) (by omega) hr0 hr1
  rw [w1, w2]
  have c2 : (m - 1 + months * S) % 12 + 1 - 1 + 1 = (m - 1 + months * S) % 12 + 1 := by
    omega
  rw [c2]
  rw [dim_compute (y + years * S + (m - 1 + months * S) / 12)
    ((m - 1 + months * S) % 12 + 1) hm3a hm3b]
  -- step 5: set the clamped day
  have r4 : setUTCDate (daysFromCivil (y + years * S + (m - 1 + months * S) / 12)
      ((m - 1 + months * S) % 12 + 1) 1 * dayMs + r)
      (min d (quirkDim (y + years * S + (m - 1 + months * S) / 12)
        ((m - 1 + months * S) % 12 + 1))) =
      daysFromCivil (y + years * S + (m - 1 + months * S) / 12)
        ((m - 1 + months * S) % 12 + 1)
        (min d (quirkDim (y + years * S + (m - 1 + months * S) / 12)
          ((m - 1 + months * S) % 12 + 1))) * dayMs + r := by
    rw [setUTCDate_struct (min d (quirkDim (y + years * S + (m - 1 + months * S) / 12)
        ((m - 1 + months * S) % 12 + 1))) hm3a hm3b (by omega : (1:Int) ≤ 1)
      (by omega) hr0 hr1]
    rw [dfc_day_affine (y + years * S + (m - 1 + months * S) / 12)
      ((m - 1 + months * S) % 12 + 1)
      (min d (quirkDim (y + years * S + (m - 1 + months * S) / 12)
        ((m - 1 + months * S) % 12 + 1)))]
  rw [r4]


/-- relativeDuration computes the absolute distance to the clamped
target instant relTarget. -/
theorem relativeDuration_eq (t months years : Int) (b : Bool) :
    DateTime.relativeDuration t months years b =
      jsAbs (relTarget t months years (if b then -1 else 1) - t) := by
  obtain ⟨v1, v2, v3, v4, v5⟩ := civil_valid (dayNumber t)
  obtain ⟨hsplit, hr0, hr1⟩ := day_split t
  have ht : t = daysFromCivil (cYear (dayNumber t)) (cMonth (dayNumber t))
      (cDay (dayNumber t)) * dayMs + timeInDay t := by
    rw [v5]
    exact hsplit
  have key := relativeDuration_struct (cYear (dayNumber t)) (cMonth (dayNumber t))
    (cDay (dayNumber t)) (timeInDay t) months years b v1 v2 v3 v4 hr0 hr1
  rw [← ht] at key
  exact key

/-- Bounds of the clamped target day. -/
theorem relDay_bounds (t months years S : Int) :
    1 ≤ relDay t months years S ∧
    relDay t months years S ≤
      daysInMonthTable (relYear t months years S) (relMonth t months S) := by
  obtain ⟨v1, v2, v3, v4, v5⟩ := civil_valid (dayNumber t)
  have hq := quirkDim_bounds (relYear t months years S) (relMonth t months S)
  have hqe := quirkDim_le (relYear t months years S) (relMonth t months S)
  have hgd : getUTCDate t = cDay (dayNumber t) := rfl
  have hrd : relDay t months years S =
      min (getUTCDate t) (quirkDim (relYear t months years S) (relMonth t months S)) := rfl
  omega

theorem relMonth_bounds (t months S : Int) :
    1 ≤ relMonth t months S ∧ relMonth t months S ≤ 12 := by
  have h : relMonth t months S = (getUTCMonth0 t + months * S) % 12 + 1 := rfl
  omega

/-- If the target month is not later than the current month in
lexicographic year/month order, the clamped target does not lie after
the original instant. -/
theorem relTarget_le (t months years S : Int)
    (h : relYear t months years S < getUTCFullYear t ∨
      (relYear t months years S = getUTCFullYear t ∧
        relMonth t months S ≤ getUTCMonth0 t + 1)) :
    relTarget t months years S ≤ t := by
  obtain ⟨v1, v2, v3, v4, v5⟩ := civil_valid (dayNumber t)
  obtain ⟨hsplit, hr0, hr1⟩ := day_split t
  obtain ⟨hd1, hd2⟩ := relDay_bounds t months years S
  obtain ⟨hm1, hm2⟩ := relMonth_bounds t months S
  have htg : relTarget t months years S =
      daysFromCivil (relYear t months years S) (relMonth t months S)
        (relDay t months years S) * dayMs + timeInDay t := rfl
  have hYe : getUTCFullYear t = cYear (dayNumber t) := rfl
  have hMe : getUTCMonth0 t = cMonth (dayNumber t) - 1 := rfl
  have hkey : daysFromCivil (relYear t months years S) (relMonth t months S)
      (relDay t months years S) ≤ dayNumber t := by
    rw [← v5]
    rcases h with h | ⟨h1, h2⟩
    · exact le_of_lt (dfc_lt_year hm1 hm2 hd1 hd2 v1 v2 v3 (by omega))
    · have h1c : relYear t months years S = cYear (dayNumber t) := by omega
      rw [h1c]
      rw [h1c] at hd2
      rcases lt_or_eq_of_le
          (show relMonth t months S ≤ cMonth (dayNumber t) by omega) with hlt | heq
      · exact le_of_lt (dfc_lt_month hm1 hd1 hd2 v2 v3 hlt)
      · rw [heq]
        have ha1 := dfc_day_affine (cYear (dayNumber t)) (cMonth (dayNumber t))
          (relDay t months years S)
        have ha2 := dfc_day_affine (cYear (dayNumber t)) (cMonth (dayNumber t))
          (cDay (dayNumber t))
        have hrd : relDay t months years S =
            min (getUTCDate t) (quirkDim (relYear t months years S)
              (relMonth t months S)) := rfl
        have hgd : getUTCDate t = cDay (dayNumber t) := rfl
        omega
  have hmul := mul_le_mul_of_nonneg_right hkey (by decide : (0 : Int) ≤ dayMs)
  omega

/-- The clamped target of a one-month forward move lies strictly after
the original instant. -/
theorem relTarget_gt_one_month (t : Int) : t < relTarget t 1 0 1 := by
  obtain ⟨v1, v2, v3, v4, v5⟩ := civil_valid (dayNumber t)
  obtain ⟨hsplit, hr0, hr1⟩ := day_split t
  obtain ⟨hd1, hd2⟩ := relDay_bounds t 1 0 1
  obtain ⟨hm1, hm2⟩ := relMonth_bounds t 1 1
  have htg : relTarget t 1 0 1 =
      daysFromCivil (relYear t 1 0 1) (relMonth t 1 1) (relDay t 1 0 1) * dayMs +
        timeInDay t := rfl
  have hYe : getUTCFullYear t = cYear (dayNumber t) := rfl
  have hMe : getUTCMonth0 t = cMonth (dayNumber t) - 1 := rfl
  have hry : relYear t 1 0 1 =
      getUTCFullYear t + 0 * 1 + (getUTCMonth0 t + 1 * 1) / 12 := rfl
  have hrm : relMonth t 1 1 = (getUTCMonth0 t + 1 * 1) % 12 + 1 := rfl
  have hkey : dayNumber t <
      daysFromCivil (relYear t 1 0 1) (relMonth t 1 1) (relDay t 1 0 1) := by
    rw [← v5]
    by_cases h12 : cMonth (dayNumber t) = 12
    · have hy : relYear t 1 0 1 = cYear (dayNumber t) + 1 := by omega
      exact dfc_lt_year v1 v2 v3 v4 hm1 hm2 hd1 (by omega)
    · have hy : relYear t 1 0 1 = cYear (dayNumber t) := by omega
      have hm : relMonth t 1 1 = cMonth (dayNumber t) + 1 := by omega
      rw [hy]
      exact dfc_lt_month v1 v3 v4 hm2 hd1 (by omega)
  have hmul := mul_le_mul_of_nonneg_right
    (by omega : dayNumber t + 1 ≤
      daysFromCivil (relYear t 1 0 1) (relMonth t 1 1) (relDay t 1 0 1))
    (by decide : (0 : Int) ≤ dayMs)
  rw [add_mul, one_mul] at hmul
  omega

/-- With no months and years, relativeDuration vanishes except on
February 29 of year 0 (where the Date.UTC two-digit-year rule makes
the computed February length 28). -/
theorem relativeDuration_zero (t : Int) (b : Bool)
    (hq : ¬ (getUTCFullYear t = 0 ∧ getUTCMonth0 t + 1 = 2 ∧ getUTCDate t = 29)) :
    DateTime.relativeDuration t 0 0 b = 0 := by
  obtain ⟨v1, v2, v3, v4, v5⟩ := civil_valid (dayNumber t)
  obtain ⟨hsplit, hr0, hr1⟩ := day_split t
  rw [relativeDuration_eq]
  generalize (if b then (-1 : Int) else 1) = S
  have hYe : getUTCFullYear t = cYear (dayNumber t) := rfl
  have hMe : getUTCMonth0 t = cMonth (dayNumber t) - 1 := rfl
  have hDe : getUTCDate t = cDay (dayNumber t) := rfl
  have hry : relYear t 0 0 S =
      getUTCFullYear t + 0 * S + (getUTCMonth0 t + 0 * S) / 12 := rfl
  have hrm : relMonth t 0 S = (getUTCMonth0 t + 0 * S) % 12 + 1 := rfl
  have hy : relYear t 0 0 S = cYear (dayNumber t) := by omega
  have hm : relMonth t 0 S = cMonth (dayNumber t) := by omega
  have hqd : cDay (dayNumber t) ≤ quirkDim (relYear t 0 0 S) (relMonth t 0 S) := by
    rw [hy, hm]
    by_cases hfeb : cYear (dayNumber t) = 0 ∧ cMonth (dayNumber t) = 2
    · have h28 : quirkDim 0 2 = 28 := quirkDim_y0_feb
      have hd29 : cDay (dayNumber t) ≤ 29 := by
        have := v4
        rw [hfeb.1, hfeb.2] at this
        simpa [daysInMonthTable, leapYear] using this
      rw [hfeb.1, hfeb.2, h28]
      omega
    · rw [quirkDim_eq _ _ hfeb]
      exact v4
  have hrd : relDay t 0 0 S =
      min (getUTCDate t) (quirkDim (relYear t 0 0 S) (relMonth t 0 S)) := rfl
  have hdd : relDay t 0 0 S = cDay (dayNumber t) := by omega
  have htg : relTarget t 0 0 S =
      daysFromCivil (relYear t 0 0 S) (relMonth t 0 S) (relDay t 0 0 S) * dayMs +
        timeInDay t := rfl
  rw [hy, hm, hdd] at htg
  rw [htg, v5, ← hsplit]
  simp [jsAbs]

/-- daysFromCivil advances by the year length from one January 1 to
the next. -/
theorem year_length (y : Int) :
    daysFromCivil (y + 1) 1 1 = daysFromCivil y 1 1 + daysInYear y := by
  have s1 := dfc_month_step y 1 (by omega) (by omega)
  have s2 := dfc_month_step y 2 (by omega) (by omega)
  have s3 := dfc_month_step y 3 (by omega) (by omega)
  have s4 := dfc_month_step y 4 (by omega) (by omega)
  have s5 := dfc_month_step y 5 (by omega) (by omega)
  have s6 := dfc_month_step y 6 (by omega) (by omega)
  have s7 := dfc_month_step y 7 (by omega) (by omega)
  have s8 := dfc_month_step y 8 (by omega) (by omega)
  have s9 := dfc_month_step y 9 (by omega) (by omega)
  have s10 := dfc_month_step y 10 (by omega) (by omega)
  have s11 := dfc_month_step y 11 (by omega) (by omega)
  have sy := dfc_year_step y
  norm_num at s1 s2 s3 s4 s5 s6 s7 s8 s9 s10 s11
  by_cases hL : leapYear y
  · have hdy : daysInYear y = 366 := by simp [daysInYear, hL]
    have hfeb : daysInMonthTable y 2 = 29 := by simp [daysInMonthTable, hL]
    have h1 : daysInMonthTable y 1 = 31 := by norm_num [daysInMonthTable]
    have h3 : daysInMonthTable y 3 = 31 := by norm_num [daysInMonthTable]
    have h4 : daysInMonthTable y 4 = 30 := by norm_num [daysInMonthTable]
    have h5 : daysInMonthTable y 5 = 31 := by norm_num [daysInMonthTable]
    have h6 : daysInMonthTable y 6 = 30 := by norm_num [daysInMonthTable]
    have h7 : daysInMonthTable y 7 = 31 := by norm_num [daysInMonthTable]
    have h8 : daysInMonthTable y 8 = 31 := by norm_num [daysInMonthTable]
    have h9 : daysInMonthTable y 9 = 30 := by norm_num [daysInMonthTable]
    have h10 : daysInMonthTable y 10 = 31 := by norm_num [daysInMonthTable]
    have h11 : daysInMonthTable y 11 = 30 := by norm_num [daysInMonthTable]
    omega
  · have hdy : daysInYear y = 365 := by simp [daysInYear, hL]
    have hfeb : daysInMonthTable y 2 = 28 := by simp [daysInMonthTable, hL]
    have h1 : daysInMonthTable y 1 = 31 := by norm_num [daysInMonthTable]
    have h3 : daysInMonthTable y 3 = 31 := by norm_num [daysInMonthTable]
    have h4 : daysInMonthTable y 4 = 30 := by norm_num [daysInMonthTable]
    have h5 : daysInMonthTable y 5 = 31 := by norm_num [daysInMonthTable]
    have h6 : daysInMonthTable y 6 = 30 := by norm_num [daysInMonthTable]
    have h7 : daysInMonthTable y 7 = 31 := by norm_num [daysInMonthTable]
    have h8 : daysInMonthTable y 8 = 31 := by norm_num [daysInMonthTable]
    have h9 : daysInMonthTable y 9 = 30 := by norm_num [daysInMonthTable]
    have h10 : daysInMonthTable y 10 = 31 := by norm_num [daysInMonthTable]
    have h11 : daysInMonthTable y 11 = 30 := by norm_num [daysInMonthTable]
    omega

/-- A day number lies in civil year y exactly when it lies between the
January 1 day numbers of y and y + 1. -/
theorem yearSpan (z y : Int) :
    cYear z = y ↔ daysFromCivil y 1 1 ≤ z ∧ z < daysFromCivil (y + 1) 1 1 := by
  obtain ⟨v1, v2, v3, v4, v5⟩ := civil_valid z
  constructor
  · intro h
    subst h
    obtain ⟨q1, q2⟩ := month_start_bounds (cYear z) (cMonth z) v1 v2
    have ha := dfc_day_affine (cYear z) (cMonth z) (cDay z)
    omega
  · intro ⟨h1, h2⟩
    rcases lt_trichotomy (cYear z) y with hy | hy | hy
    · exfalso
      obtain ⟨q1, q2⟩ := month_start_bounds (cYear z) (cMonth z) v1 v2
      have ha := dfc_day_affine (cYear z) (cMonth z) (cDay z)
      have hj := dfc_jan_mono (by omega : cYear z + 1 ≤ y)
      omega
    · exact hy
    · exfalso
      obtain ⟨q1, q2⟩ := month_start_bounds (cYear z) (cMonth z) v1 v2
      have ha := dfc_day_affine (cYear z) (cMonth z) (cDay z)
      have hj := dfc_jan_mono (by omega : y + 1 ≤ cYear z)
      omega


/-! ## Claim C8 -/

/-- C8: for all instants a and b, Duration.between(a, b) is the signed
difference b - a of epoch milliseconds, and it is antisymmetric:
between(a, b) = -between(b, a). -/
theorem C8_between_signed_antisymm (a b : Int) :
    Duration.between a b = -(Duration.between b a) ∧
    Duration.between a b = b - a := by
  unfold Duration.between
  omega

/-! ## Claim C9 -/

/-- C9: every unit-conversion read divides the stored millisecond count
by the fixed unit factor and applies the rounding policy only at the
read: no option gives the exact quotient, round true the nearest
integer (floor of q + 1/2), round up the ceiling, round down the
floor; a 25-hour duration reads as 25/24 days unrounded, 2 days with
round up, 1 day with round down and 1 day with round true. -/
theorem C9_unit_conversion_rounding (v : Int) :
    (Duration.days v none = (v : Rat) / 86400000 ∧
      Duration.days v (some Duration.RoundMode.up) = ((⌈(v : Rat) / 86400000⌉ : Int) : Rat) ∧
      Duration.days v (some Duration.RoundMode.down) = ((⌊(v : Rat) / 86400000⌋ : Int) : Rat) ∧
      Duration.days v (some Duration.RoundMode.nearest) =
        ((⌊(v : Rat) / 86400000 + 1 / 2⌋ : Int) : Rat)) ∧
    (Duration.hours v none = (v : Rat) / 3600000 ∧
      Duration.minutes v none = (v : Rat) / 60000 ∧
      Duration.seconds v none = (v : Rat) / 1000) ∧
    (Duration.fromBag { hours := 25 } = 90000000 ∧
      Duration.days 90000000 none = 25 / 24 ∧
      Duration.days 90000000 (some Duration.RoundMode.up) = 2 ∧
      Duration.days 90000000 (some Duration.RoundMode.down) = 1 ∧
      Duration.days 90000000 (some Duration.RoundMode.nearest) = 1) := by
  refine ⟨⟨?_, ?_, ?_, ?_⟩, ⟨?_, ?_, ?_⟩, ⟨?_, ?_, ?_, ?_, ?_⟩⟩ <;>
    simp only [Duration.days, Duration.hours, Duration.minutes, Duration.seconds,
      Duration.durationReturn, Duration.fromBag] <;>
    norm_num
  all_goals try norm_num [Int.floor_eq_iff]
  have hc : (⌈(25 / 24 : Rat)⌉ : Int) = 2 := by
    rw [Int.ceil_eq_iff]
    norm_num
  exact_mod_cast hc

/-! ## Claim C10 -/

/-- C10: for every strictly negative stored millisecond value, iso()
returns PT0S: the floor divisions and the sign-preserving remainder
never produce a strictly positive component from a negative value, so
every component is omitted and the all-zero fallback is emitted. -/
theorem C10_negative_iso (v : Int) (h : v < 0) : Duration.iso v = "PT0S" := by
  have hdays : ¬ v / (24 * 60 * 60 * 1000) > 0 := by omega
  have hrem1 : jsRem v (24 * 60 * 60 * 1000) ≤ 0 := by
    unfold jsRem
    split_ifs <;> omega
  have hrem2 : jsRem v (60 * 60 * 1000) ≤ 0 := by
    unfold jsRem
    split_ifs <;> omega
  have hrem3 : jsRem v (60 * 1000) ≤ 0 := by
    unfold jsRem
    split_ifs <;> omega
  have hhours : ¬ jsRem v (24 * 60 * 60 * 1000) / (60 * 60 * 1000) > 0 := by omega
  have hminutes : ¬ jsRem v (60 * 60 * 1000) / (60 * 1000) > 0 := by omega
  have hseconds : ¬ jsRem v (60 * 1000) / 1000 > 0 := by omega
  simp only [Duration.iso]
  rw [if_neg hdays, if_neg (by omega :
    ¬ (jsRem v (24 * 60 * 60 * 1000) / (60 * 60 * 1000) > 0 ∨
      jsRem v (60 * 60 * 1000) / (60 * 1000) > 0 ∨
      jsRem v (60 * 1000) / 1000 > 0))]
  decide

/-- Witness for C10 at the concrete value -1. -/
theorem C10_negative_iso_witness :
    (-1 : Int) < 0 ∧ Duration.iso (-1) = "PT0S" :=
  ⟨by decide, C10_negative_iso (-1) (by decide)⟩

/-! ## Claim C6 -/

/-- C6 counterexample: a numeric positive-infinity input passes the
construction guard (only Number.isNaN is checked), producing a
DateTime wrapping a non-finite value, so construction from a
non-finite source does not always fail. -/
theorem C6_counterexample :
    DateTime.fromNumber JSNum.posInf = Except.ok ⟨JSNum.posInf⟩ ∧
    jsIsFinite JSNum.posInf = false := by
  exact ⟨rfl, rfl⟩

/-- C6 amended: the numeric construction path fails exactly on NaN;
every non-NaN number, including the infinities, is wrapped as given. -/
theorem C6_nan_only_rejected (x : JSNum) :
    (DateTime.fromNumber x = Except.error "Invalid date time" ↔ x = JSNum.nan) ∧
    (x ≠ JSNum.nan → DateTime.fromNumber x = Except.ok ⟨x⟩) := by
  cases x <;> simp [DateTime.fromNumber, jsIsNaN]

/-- Witness for C6 at the concrete input positive infinity. -/
theorem C6_nan_only_rejected_witness :
    JSNum.posInf ≠ JSNum.nan ∧
    DateTime.fromNumber JSNum.posInf = Except.ok ⟨JSNum.posInf⟩ :=
  ⟨by decide, (C6_nan_only_rejected JSNum.posInf).2 (by decide)⟩


/-! ## Claim C1 -/

/-- C1 amended: for every instant whose immediately following calendar
month is not February of year 0, plus({months: 1}) lands in the
immediately following calendar month, on the day min(D, length of the
target month), with the time of day unchanged.  (For instants of
January of year 0 with D at least 29, the implementation clamps to 28
because Date.UTC maps years 0..99 to 1900..1999 when it computes the
target month length.) -/
theorem C1_plus_one_month_clamps (t : Int)
    (hq : ¬ (nextMonthYear t = 0 ∧ nextMonth t = 2)) :
    getUTCFullYear (DateTime.plus t { months := 1 }) = nextMonthYear t ∧
    monthOf (DateTime.plus t { months := 1 }) = nextMonth t ∧
    getUTCDate (DateTime.plus t { months := 1 }) =
      min (getUTCDate t) (daysInMonthTable (nextMonthYear t) (nextMonth t)) ∧
    timeInDay (DateTime.plus t { months := 1 }) = timeInDay t := by
  obtain ⟨v1, v2, v3, v4, v5⟩ := civil_valid (dayNumber t)
  obtain ⟨hsplit, hr0, hr1⟩ := day_split t
  have hMe : getUTCMonth0 t = cMonth (dayNumber t) - 1 := rfl
  have hmo : monthOf t = getUTCMonth0 t + 1 := rfl
  have hry : relYear t 1 0 1 =
      getUTCFullYear t + 0 * 1 + (getUTCMonth0 t + 1 * 1) / 12 := rfl
  have hrm : relMonth t 1 1 = (getUTCMonth0 t + 1 * 1) % 12 + 1 := rfl
  -- the target month is the immediately following calendar month
  have hnext : relYear t 1 0 1 = nextMonthYear t ∧ relMonth t 1 1 = nextMonth t := by
    unfold nextMonthYear nextMonth
    split_ifs with h12 <;> omega
  -- the computed plus value is the clamped target instant
  have hplus : DateTime.plus t { months := 1 } =
      t + (DateTime.relativeDuration t 1 0 false +
        DateTime.absoluteDuration { months := 1 }) := rfl
  have habs : DateTime.absoluteDuration { months := 1 } = 0 := by
    norm_num [DateTime.absoluteDuration, Duration.fromBag]
  have hgt := relTarget_gt_one_month t
  have hrel : DateTime.relativeDuration t 1 0 false = relTarget t 1 0 1 - t := by
    rw [relativeDuration_eq]
    rw [show (if false then (-1 : Int) else 1) = 1 from rfl]
    unfold jsAbs
    rw [if_pos (by omega : (0 : Int) ≤ relTarget t 1 0 1 - t)]
  have hres : DateTime.plus t { months := 1 } = relTarget t 1 0 1 := by
    rw [hplus, habs, hrel]
    omega
  -- unfold the target and read its components back
  obtain ⟨hd1, hd2⟩ := relDay_bounds t 1 0 1
  obtain ⟨hm1, hm2⟩ := relMonth_bounds t 1 1
  have htg : relTarget t 1 0 1 =
      daysFromCivil (relYear t 1 0 1) (relMonth t 1 1) (relDay t 1 0 1) * dayMs +
        timeInDay t := rfl
  obtain ⟨g1, g2, g3, g4⟩ := getters_struct hm1 hm2 hd1 hd2 hr0 hr1
  rw [hres, htg]
  have hmo2 : monthOf (daysFromCivil (relYear t 1 0 1) (relMonth t 1 1)
      (relDay t 1 0 1) * dayMs + timeInDay t) =
      getUTCMonth0 (daysFromCivil (relYear t 1 0 1) (relMonth t 1 1)
        (relDay t 1 0 1) * dayMs + timeInDay t) + 1 := rfl
  have hrd : relDay t 1 0 1 =
      min (getUTCDate t) (quirkDim (relYear t 1 0 1) (relMonth t 1 1)) := rfl
  have hqd : quirkDim (relYear t 1 0 1) (relMonth t 1 1) =
      daysInMonthTable (relYear t 1 0 1) (relMonth t 1 1) :=
    quirkDim_eq _ _ (by omega)
  rw [g1, hmo2, g2, g3, g4, hrd, hqd, hnext.1, hnext.2]
  omega

/-- C1 counterexample: starting from 0000-01-31T00:00:00Z, the target
month is February of year 0 with 29 days, yet plus({months: 1}) lands
on day 28, not min(31, 29) = 29, because the month length is computed
through Date.UTC which maps year 0 to year 1900. -/
theorem C1_counterexample :
    getUTCDate jan31of0000 = 31 ∧
    nextMonthYear jan31of0000 = 0 ∧ nextMonth jan31of0000 = 2 ∧
    daysInMonthTable 0 2 = 29 ∧
    getUTCDate (DateTime.plus jan31of0000 { months := 1 }) = 28 ∧
    getUTCDate (DateTime.plus jan31of0000 { months := 1 }) ≠
      min (getUTCDate jan31of0000) (daysInMonthTable 0 2) := by
  decide

/-- Witness for C1 at 2024-01-31T00:00:00Z (leap-year clamp to
2024-02-29). -/
theorem C1_plus_one_month_clamps_witness :
    ¬ (nextMonthYear jan31of2024 = 0 ∧ nextMonth jan31of2024 = 2) ∧
    (getUTCFullYear (DateTime.plus jan31of2024 { months := 1 }) =
        nextMonthYear jan31of2024 ∧
      monthOf (DateTime.plus jan31of2024 { months := 1 }) = nextMonth jan31of2024 ∧
      getUTCDate (DateTime.plus jan31of2024 { months := 1 }) =
        min (getUTCDate jan31of2024)
          (daysInMonthTable (nextMonthYear jan31of2024) (nextMonth jan31of2024)) ∧
      timeInDay (DateTime.plus jan31of2024 { months := 1 }) = timeInDay jan31of2024) :=
  ⟨by decide, C1_plus_one_month_clamps jan31of2024 (by decide)⟩

/-! ## Claim C4 -/

/-- C4 amended: adding then subtracting the same purely-absolute
duration object is an exact round-trip, provided neither the original
instant nor the sum lies on February 29 of year 0 (there the relative
no-op contributes a spurious day because the implementation computes
that month length as 28 through Date.UTC). -/
theorem C4_absolute_roundtrip (t : Int) (bag : DurationBag)
    (habs : bag.months = 0 ∧ bag.years = 0)
    (h1 : ¬ isFeb29Year0 t) (h2 : ¬ isFeb29Year0 (DateTime.plus t bag)) :
    DateTime.minus (DateTime.plus t bag) bag = t := by
  obtain ⟨hbm, hby⟩ := habs
  have hp : DateTime.plus t bag =
      t + (DateTime.relativeDuration t bag.months bag.years false +
        DateTime.absoluteDuration bag) := rfl
  have hmn : DateTime.minus (DateTime.plus t bag) bag =
      DateTime.plus t bag -
        (DateTime.relativeDuration (DateTime.plus t bag) bag.months bag.years true +
          DateTime.absoluteDuration bag) := rfl
  rw [hbm, hby] at hp hmn
  have hz1 : DateTime.relativeDuration t 0 0 false = 0 :=
    relativeDuration_zero t false (fun hc => h1 ⟨hc.1, hc.2.1, hc.2.2⟩)
  have hz2 : DateTime.relativeDuration (DateTime.plus t bag) 0 0 true = 0 :=
    relativeDuration_zero (DateTime.plus t bag) true
      (fun hc => h2 ⟨hc.1, hc.2.1, hc.2.2⟩)
  rw [hz2] at hmn
  rw [hz1] at hp
  omega

/-- C4 counterexample: from 0000-02-29T00:00:00Z, plus then minus of
the purely-absolute duration of one day gains a whole day instead of
round-tripping. -/
theorem C4_counterexample :
    DateTime.minus (DateTime.plus feb29of0000 { days := 1 }) { days := 1 } ≠
      feb29of0000 ∧
    DateTime.minus (DateTime.plus feb29of0000 { days := 1 }) { days := 1 } =
      feb29of0000 + dayMs := by
  decide

/-- Witness for C4: one day added to and subtracted from
2024-01-01T00:00:00Z round-trips exactly. -/
theorem C4_absolute_roundtrip_witness :
    (({ days := 1 } : DurationBag).months = 0 ∧
      ({ days := 1 } : DurationBag).years = 0) ∧
    ¬ isFeb29Year0 jan1of2024 ∧
    ¬ isFeb29Year0 (DateTime.plus jan1of2024 { days := 1 }) ∧
    DateTime.minus (DateTime.plus jan1of2024 { days := 1 }) { days := 1 } =
      jan1of2024 :=
  ⟨⟨rfl, rfl⟩, by decide, by decide,
    C4_absolute_roundtrip jan1of2024 { days := 1 } ⟨rfl, rfl⟩ (by decide) (by decide)⟩


/-! ## Claim C2 -/

/-- minus with a purely relative bag equals the clamped combined
target, for nonnegative months and years, away from the February of
year 0 quirk. -/
theorem minus_relative_eq_combined (t mo yr : Int) (hmo : 0 ≤ mo) (hyr : 0 ≤ yr)
    (hq : ¬ (relYear t mo yr (-1) = 0 ∧ relMonth t mo (-1) = 2)) :
    DateTime.minus t { months := mo, years := yr } = combinedTarget t mo yr (-1) := by
  obtain ⟨v1, v2, v3, v4, v5⟩ := civil_valid (dayNumber t)
  have hMe : getUTCMonth0 t = cMonth (dayNumber t) - 1 := rfl
  have hry : relYear t mo yr (-1) =
      getUTCFullYear t + yr * (-1) + (getUTCMonth0 t + mo * (-1)) / 12 := rfl
  have hrm : relMonth t mo (-1) = (getUTCMonth0 t + mo * (-1)) % 12 + 1 := rfl
  have hle := relTarget_le t mo yr (-1) (by
    by_cases hz : relYear t mo yr (-1) = getUTCFullYear t
    · right
      exact ⟨hz, by omega⟩
    · left
      omega)
  have hmn : DateTime.minus t { months := mo, years := yr } =
      t - (DateTime.relativeDuration t mo yr true +
        DateTime.absoluteDuration { months := mo, years := yr }) := rfl
  have habs : DateTime.absoluteDuration { months := mo, years := yr } = 0 := by
    norm_num [DateTime.absoluteDuration, Duration.fromBag]
  have hrel : DateTime.relativeDuration t mo yr true = t - relTarget t mo yr (-1) := by
    rw [relativeDuration_eq]
    rw [show (if true then (-1 : Int) else 1) = -1 from rfl]
    unfold jsAbs
    split_ifs with hpos <;> omega
  have hrd : relDay t mo yr (-1) =
      min (getUTCDate t) (quirkDim (relYear t mo yr (-1)) (relMonth t mo (-1))) := rfl
  have hqd : quirkDim (relYear t mo yr (-1)) (relMonth t mo (-1)) =
      daysInMonthTable (relYear t mo yr (-1)) (relMonth t mo (-1)) :=
    quirkDim_eq _ _ hq
  have htg : relTarget t mo yr (-1) =
      daysFromCivil (relYear t mo yr (-1)) (relMonth t mo (-1))
        (relDay t mo yr (-1)) * dayMs + timeInDay t := rfl
  have hct : combinedTarget t mo yr (-1) =
      daysFromCivil (relYear t mo yr (-1)) (relMonth t mo (-1))
        (min (getUTCDate t) (daysInMonthTable (relYear t mo yr (-1))
          (relMonth t mo (-1)))) * dayMs + timeInDay t := rfl
  have heq : combinedTarget t mo yr (-1) = relTarget t mo yr (-1) := by
    rw [hct, htg, hrd, hqd]
  rw [hmn, habs, hrel, heq]
  omega

/-- C2: a compound relative delta supplying both months and years is
applied as one combined operation: the years go into the year field,
the months are added against that shifted date with calendar
normalization, and the day of month is clamped once at the end (to
the implementation-computed target month length); in particular
2024-02-29 minus {months: 12, years: 1} is 2022-02-28, and the result
differs from applying the two deltas sequentially. -/
theorem C2_compound_relative_minus :
    (∀ t mo yr : Int, 0 ≤ mo → 0 ≤ yr →
      ¬ (relYear t mo yr (-1) = 0 ∧ relMonth t mo (-1) = 2) →
      DateTime.minus t { months := mo, years := yr } = combinedTarget t mo yr (-1)) ∧
    DateTime.minus feb29of2024 { months := 12, years := 1 } =
      daysFromCivil 2022 2 28 * dayMs ∧
    DateTime.minus feb29of2024 { months := 1, years := 1 } ≠
      DateTime.minus (DateTime.minus feb29of2024 { years := 1 }) { months := 1 } := by
  refine ⟨minus_relative_eq_combined, ?_, ?_⟩ <;> decide

/-- C2 counterexample: from 0004-02-29, minus {months: 12, years: 3}
targets February of year 0; the combined operation with a single clamp
to the true target month length (29 days in the leap year 0) would
land on 0000-02-29, but the implementation lands on 0000-02-28
because Date.UTC computes the length of February of year 0 as that of
February 1900. -/
theorem C2_counterexample :
    DateTime.minus feb29of0004 { months := 12, years := 3 } =
      daysFromCivil 0 2 28 * dayMs ∧
    combinedTarget feb29of0004 12 3 (-1) = daysFromCivil 0 2 29 * dayMs ∧
    DateTime.minus feb29of0004 { months := 12, years := 3 } ≠
      combinedTarget feb29of0004 12 3 (-1) := by
  decide

/-- Witness for C2 at 2024-02-29 minus {months: 12, years: 1}. -/
theorem C2_compound_relative_minus_witness :
    (0 : Int) ≤ 12 ∧ (0 : Int) ≤ 1 ∧
    ¬ (relYear feb29of2024 12 1 (-1) = 0 ∧ relMonth feb29of2024 12 (-1) = 2) ∧
    DateTime.minus feb29of2024 { months := 12, years := 1 } =
      combinedTarget feb29of2024 12 1 (-1) :=
  ⟨by decide, by decide, by decide,
    C2_compound_relative_minus.1 feb29of2024 12 1 (by decide) (by decide) (by decide)⟩

/-! ## Claim C3 -/

/-- C3 counterexample: plus({months: -1}) from 2024-03-31 computes the
clamped earlier date 2024-02-29 but then adds its distance, landing on
2024-05-01, strictly after the original instant rather than on the
clamped earlier date. -/
theorem C3_counterexample :
    combinedTarget mar31of2024 (-1) 0 1 = daysFromCivil 2024 2 29 * dayMs ∧
    DateTime.plus mar31of2024 { months := -1 } = daysFromCivil 2024 5 1 * dayMs ∧
    mar31of2024 < DateTime.plus mar31of2024 { months := -1 } := by
  decide

/-- C3 amended: for nonpositive months and years (quirk excluded), the
clamped earlier target is computed as the claim describes, but
Math.abs drops the sign of the difference, so plus moves forward by
the distance to that earlier date instead of landing on it:
plus(delta) = t + (t - combinedTarget). -/
theorem C3_negative_months_reflected (t mo yr : Int) (hmo : mo ≤ 0) (hyr : yr ≤ 0)
    (hq : ¬ (relYear t mo yr 1 = 0 ∧ relMonth t mo 1 = 2)) :
    combinedTarget t mo yr 1 ≤ t ∧
    DateTime.plus t { months := mo, years := yr } =
      t + (t - combinedTarget t mo yr 1) := by
  obtain ⟨v1, v2, v3, v4, v5⟩ := civil_valid (dayNumber t)
  have hMe : getUTCMonth0 t = cMonth (dayNumber t) - 1 := rfl
  have hry : relYear t mo yr 1 =
      getUTCFullYear t + yr * 1 + (getUTCMonth0 t + mo * 1) / 12 := rfl
  have hrm : relMonth t mo 1 = (getUTCMonth0 t + mo * 1) % 12 + 1 := rfl
  have hle := relTarget_le t mo yr 1 (by
    by_cases hz : relYear t mo yr 1 = getUTCFullYear t
    · right
      exact ⟨hz, by omega⟩
    · left
      omega)
  have hpl : DateTime.plus t { months := mo, years := yr } =
      t + (DateTime.relativeDuration t mo yr false +
        DateTime.absoluteDuration { months := mo, years := yr }) := rfl
  have habs : DateTime.absoluteDuration { months := mo, years := yr } = 0 := by
    norm_num [DateTime.absoluteDuration, Duration.fromBag]
  have hrel : DateTime.relativeDuration t mo yr false = t - relTarget t mo yr 1 := by
    rw [relativeDuration_eq]
    rw [show (if false then (-1 : Int) else 1) = 1 from rfl]
    unfold jsAbs
    split_ifs with hpos <;> omega
  have hrd : relDay t mo yr 1 =
      min (getUTCDate t) (quirkDim (relYear t mo yr 1) (relMonth t mo 1)) := rfl
  have hqd : quirkDim (relYear t mo yr 1) (relMonth t mo 1) =
      daysInMonthTable (relYear t mo yr 1) (relMonth t mo 1) :=
    quirkDim_eq _ _ hq
  have htg : relTarget t mo yr 1 =
      daysFromCivil (relYear t mo yr 1) (relMonth t mo 1)
        (relDay t mo yr 1) * dayMs + timeInDay t := rfl
  have hct : combinedTarget t mo yr 1 =
      daysFromCivil (relYear t mo yr 1) (relMonth t mo 1)
        (min (getUTCDate t) (daysInMonthTable (relYear t mo yr 1)
          (relMonth t mo 1))) * dayMs + timeInDay t := rfl
  have heq : combinedTarget t mo yr 1 = relTarget t mo yr 1 := by
    rw [hct, htg, hrd, hqd]
  refine ⟨by omega, ?_⟩
  rw [hpl, habs, hrel, heq]
  omega

/-- Witness for C3 at 2024-03-31 plus {months: -1}. -/
theorem C3_negative_months_reflected_witness :
    (-1 : Int) ≤ 0 ∧ (0 : Int) ≤ 0 ∧
    ¬ (relYear mar31of2024 (-1) 0 1 = 0 ∧ relMonth mar31of2024 (-1) 1 = 2) ∧
    (combinedTarget mar31of2024 (-1) 0 1 ≤ mar31of2024 ∧
      DateTime.plus mar31of2024 { months := -1, years := 0 } =
        mar31of2024 + (mar31of2024 - combinedTarget mar31of2024 (-1) 0 1)) :=
  ⟨by decide, by decide, by decide,
    C3_negative_months_reflected mar31of2024 (-1) 0 (by decide) (by decide) (by decide)⟩


/-! ## Claim C5 -/

/-- plus with a pure day count is a plain millisecond shift (away from
the February 29 year 0 quirk of the start instant). -/
theorem plus_days (s i : Int) (hq : ¬ isFeb29Year0 s) :
    DateTime.plus s { days := i } = s + i * 86400000 := by
  have h0 : DateTime.plus s { days := i } =
      s + (DateTime.relativeDuration s 0 0 false +
        DateTime.absoluteDuration { days := i }) := rfl
  have h1 : DateTime.relativeDuration s 0 0 false = 0 :=
    relativeDuration_zero s false hq
  have h2 : DateTime.absoluteDuration { days := i } = i * 86400000 := by
    norm_num [DateTime.absoluteDuration, Duration.fromBag]
  rw [h0, h1, h2]
  ring

/-- An instant at the start of its day has zero time within day, and
its year is outside 0..99 (inside that band Date.UTC shifts the year
by 1900, so the reconstruction never matches). -/
theorem isStartOfDay_struct (e : Int) (h : DateTime.isStartOfDay e = true) :
    ¬ (0 ≤ getUTCFullYear e ∧ getUTCFullYear e ≤ 99) ∧ timeInDay e = 0 := by
  have he : e = DateTime.startOfDay e := of_decide_eq_true h
  obtain ⟨v1, v2, v3, v4, v5⟩ := civil_valid (dayNumber e)
  obtain ⟨hsplit, hr0, hr1⟩ := day_split e
  have hsod : DateTime.startOfDay e =
      makeDay (makeFullYear (cYear (dayNumber e))) (cMonth (dayNumber e) - 1)
        (cDay (dayNumber e)) * dayMs + (((0 * 60 + 0) * 60 + 0) * 1000 + 0) := rfl
  have hmn := makeDay_norm (makeFullYear (cYear (dayNumber e)))
    (cMonth (dayNumber e) - 1) (cDay (dayNumber e)) (by omega) (by omega)
  have hm1 : cMonth (dayNumber e) - 1 + 1 = cMonth (dayNumber e) := by omega
  rw [hm1] at hmn
  rw [hmn] at hsod
  have haff := dfc_day_affine (cYear (dayNumber e)) (cMonth (dayNumber e))
    (cDay (dayNumber e))
  have hdm : dayMs = (86400000 : Int) := rfl
  rw [hdm] at hsod hsplit hr1
  norm_num at hsod
  by_cases hsm : 0 ≤ cYear (dayNumber e) ∧ cYear (dayNumber e) ≤ 99
  · exfalso
    have hmf : makeFullYear (cYear (dayNumber e)) = 1900 + cYear (dayNumber e) := by
      unfold makeFullYear
      rw [if_pos hsm]
    have hb := dim_bounds (cYear (dayNumber e)) (cMonth (dayNumber e))
    have hlt : daysFromCivil (cYear (dayNumber e)) (cMonth (dayNumber e)) 1 <
        daysFromCivil (1900 + cYear (dayNumber e)) (cMonth (dayNumber e)) 1 :=
      dfc_lt_year v1 v2 (by omega) (by omega) v1 v2 (by omega) (by omega)
    rw [hmf] at hsod
    omega
  · have hmf : makeFullYear (cYear (dayNumber e)) = cYear (dayNumber e) := by
      unfold makeFullYear
      rw [if_neg hsm]
    rw [hmf] at hsod
    exact ⟨hsm, by omega⟩

/-- Pulling an instant that sits at the start of a day back by one
millisecond is a plain decrement. -/
theorem minus_one_of_startOfDay (e : Int) (h : DateTime.isStartOfDay e = true) :
    DateTime.minus e { millis := 1 } = e - 1 := by
  obtain ⟨hy, _⟩ := isStartOfDay_struct e h
  have h0 : DateTime.minus e { millis := 1 } =
      e - (DateTime.relativeDuration e 0 0 true +
        DateTime.absoluteDuration { millis := 1 }) := rfl
  have h1 : DateTime.relativeDuration e 0 0 true = 0 :=
    relativeDuration_zero e true (by
      intro hc
      exact hy ⟨by omega, by omega⟩)
  have h2 : DateTime.absoluteDuration { millis := 1 } = 1 := by
    norm_num [DateTime.absoluteDuration, Duration.fromBag]
  rw [h0, h1, h2]
  omega

/-- C5: Interval.days drops the final day exactly when the end sits at
a day start, and it enumerates start.plus({days: i}); but the number
of entries is one plus the floored quotient of the adjusted span by
86400000 — 24-hour steps measured from the start instant, not calendar
days spanned.  The two cited lengths (1 and 2) hold. -/
theorem C5_days_enumeration :
    (∀ s e : Int, ¬ isFeb29Year0 s →
      Interval.days s e =
        (range 0 (((if DateTime.isStartOfDay e then e - 1 else e) - s) / dayMs +
          1)).map (fun i => s + i * 86400000)) ∧
    (Interval.days jan1of2024 jan2of2024).length = 1 ∧
    (Interval.days jan1of2024 jan2of2024End).length = 2 := by
  refine ⟨?_, by decide, by decide⟩
  intro s e hq
  have hend : (if DateTime.isStartOfDay e then DateTime.minus e { millis := 1 }
      else e) = (if DateTime.isStartOfDay e then e - 1 else e) := by
    cases hs : DateTime.isStartOfDay e
    · rfl
    · exact minus_one_of_startOfDay e hs
  have h0 : Interval.days s e =
      (range 0 (Duration.between s (if DateTime.isStartOfDay e
        then DateTime.minus e { millis := 1 } else e) / dayMs + 1)).map
        (fun day => DateTime.plus s { days := day }) := rfl
  rw [h0, hend]
  have hb : Duration.between s (if DateTime.isStartOfDay e then e - 1 else e) =
      (if DateTime.isStartOfDay e then e - 1 else e) - s := rfl
  rw [hb]
  exact List.map_congr_left (fun i _ => plus_days s i hq)

/-- C5 counterexample: the interval from 2024-01-01T23:00Z to
2024-01-02T01:00Z spans two calendar days and its end is not at a day
start, yet days() has a single entry: the count is 24-hour steps from
the start, not calendar days spanned. -/
theorem C5_counterexample :
    (Interval.days jan1of2024T2300 jan2of2024T0100).length = 1 ∧
    dayNumber jan2of2024T0100 = dayNumber jan1of2024T2300 + 1 ∧
    DateTime.isStartOfDay jan2of2024T0100 = false := by
  decide

/-- Witness for C5 at the 2024-01-01 .. 2024-01-02T23:59:59.999Z
interval. -/
theorem C5_days_enumeration_witness :
    ¬ isFeb29Year0 jan1of2024 ∧
    Interval.days jan1of2024 jan2of2024End =
      (range 0 (((if DateTime.isStartOfDay jan2of2024End then jan2of2024End - 1
        else jan2of2024End) - jan1of2024) / dayMs + 1)).map
        (fun i => jan1of2024 + i * 86400000) :=
  ⟨by decide, C5_days_enumeration.1 jan1of2024 jan2of2024End (by decide)⟩


/-! ## Claim C7 -/

theorem getUTCFullYear_day (k : Int) : getUTCFullYear (k * dayMs + 0) = cYear k := by
  have g : getUTCFullYear (k * dayMs + 0) = cYear (dayNumber (k * dayMs + 0)) := rfl
  obtain ⟨h1, h2⟩ := day_struct (k := k) (r := 0) (le_refl 0) (by decide)
  rw [g, h1]

theorem getUTCMonth0_day (k : Int) : getUTCMonth0 (k * dayMs + 0) = cMonth k - 1 := by
  have g : getUTCMonth0 (k * dayMs + 0) = cMonth (dayNumber (k * dayMs + 0)) - 1 := rfl
  obtain ⟨h1, h2⟩ := day_struct (k := k) (r := 0) (le_refl 0) (by decide)
  rw [g, h1]

theorem getUTCDate_day (k : Int) : getUTCDate (k * dayMs + 0) = cDay k := by
  have g : getUTCDate (k * dayMs + 0) = cDay (dayNumber (k * dayMs + 0)) := rfl
  obtain ⟨h1, h2⟩ := day_struct (k := k) (r := 0) (le_refl 0) (by decide)
  rw [g, h1]

/-- For a year outside 0..99, the ordinal factory succeeds exactly when
the day of year is in range for that year. -/
theorem fromOrdinal_spec (y doy : Int) (hy : ¬ (0 ≤ y ∧ y ≤ 99)) :
    (∃ v, DateTime.fromOrdinal y doy 0 0 0 0 = Except.ok v) ↔
      1 ≤ doy ∧ doy ≤ daysInYear y := by
  have hmf : makeFullYear y = y := by
    unfold makeFullYear
    rw [if_neg hy]
  have hdate : utcMillis y 0 1 0 0 0 0 = daysFromCivil y 1 1 * dayMs + 0 := by
    have e : utcMillis y 0 1 0 0 0 0 =
        makeDay (makeFullYear y) 0 1 * dayMs +
          (((0 * 60 + 0) * 60 + 0) * 1000 + 0) := rfl
    have e2 := makeDay_norm (makeFullYear y) 0 1 (by omega) (by omega)
    rw [e, e2, hmf]
    norm_num
  have hdimb := dim_bounds y 1
  have hset := setUTCDate_struct (y := y) (m := 1) (d := 1) (r := 0) doy
    (by omega) (by omega) (by omega) (by omega) (le_refl 0) (by decide)
  have h0 : DateTime.fromOrdinal y doy 0 0 0 0 =
      (if getUTCFullYear (setUTCDate (utcMillis y 0 1 0 0 0 0) doy) ≠ y then
        Except.error "Invalid day of year"
      else Except.ok (setUTCDate (utcMillis y 0 1 0 0 0 0) doy)) := rfl
  rw [hdate, hset] at h0
  have hspan := yearSpan (daysFromCivil y 1 1 + (doy - 1)) y
  have hyl := year_length y
  constructor
  · intro ⟨v, hv⟩
    by_cases hc :
      getUTCFullYear ((daysFromCivil y 1 1 + (doy - 1)) * dayMs + 0) ≠ y
    · rw [if_pos hc] at h0
      rw [h0] at hv
      exact Except.noConfusion hv
    · push_neg at hc
      rw [getUTCFullYear_day] at hc
      rw [hspan] at hc
      omega
  · intro hr
    have hcy : getUTCFullYear ((daysFromCivil y 1 1 + (doy - 1)) * dayMs + 0) = y := by
      rw [getUTCFullYear_day]
      exact hspan.mpr (by omega)
    have hc : ¬ getUTCFullYear ((daysFromCivil y 1 1 + (doy - 1)) * dayMs + 0) ≠ y :=
      fun hne => hne hcy
    rw [if_neg hc] at h0
    exact ⟨_, h0⟩

/-- For a year in 0..99, the ordinal factory always rejects: Date.UTC
shifts such a year to 1900..1999, so the year read back never matches
the stated year. -/
theorem fromOrdinal_small (y doy : Int) (h0y : 0 ≤ y) (h1y : y ≤ 99) (hdoy : 1 ≤ doy) :
    DateTime.fromOrdinal y doy 0 0 0 0 = Except.error "Invalid day of year" := by
  have hmf : makeFullYear y = 1900 + y := by
    unfold makeFullYear
    rw [if_pos ⟨h0y, h1y⟩]
  have hdate : utcMillis y 0 1 0 0 0 0 = daysFromCivil (1900 + y) 1 1 * dayMs + 0 := by
    have e : utcMillis y 0 1 0 0 0 0 =
        makeDay (makeFullYear y) 0 1 * dayMs +
          (((0 * 60 + 0) * 60 + 0) * 1000 + 0) := rfl
    have e2 := makeDay_norm (makeFullYear y) 0 1 (by omega) (by omega)
    rw [e, e2, hmf]
    norm_num
  have hdimb := dim_bounds (1900 + y) 1
  have hset := setUTCDate_struct (y := 1900 + y) (m := 1) (d := 1) (r := 0) doy
    (by omega) (by omega) (by omega) (by omega) (le_refl 0) (by decide)
  have h0 : DateTime.fromOrdinal y doy 0 0 0 0 =
      (if getUTCFullYear (setUTCDate (utcMillis y 0 1 0 0 0 0) doy) ≠ y then
        Except.error "Invalid day of year"
      else Except.ok (setUTCDate (utcMillis y 0 1 0 0 0 0) doy)) := rfl
  rw [hdate, hset] at h0
  have hspan := yearSpan (daysFromCivil (1900 + y) 1 1 + (doy - 1)) y
  have hmono := dfc_jan_mono (show y + 1 ≤ 1900 + y by omega)
  have hc : getUTCFullYear ((daysFromCivil (1900 + y) 1 1 + (doy - 1)) * dayMs + 0) ≠ y := by
    rw [getUTCFullYear_day]
    intro hcy
    rw [hspan] at hcy
    omega
  rw [h0, if_pos hc]

/-- For a year outside 0..99, the component factory succeeds exactly
when the (year, month, dayOfMonth) triple is a valid calendar date. -/
theorem fromComponents_spec (y m d : Int) (hy : ¬ (0 ≤ y ∧ y ≤ 99)) :
    (∃ v, DateTime.fromComponents y m d 0 0 0 0 = Except.ok v) ↔
      1 ≤ m ∧ m ≤ 12 ∧ 1 ≤ d ∧ d ≤ daysInMonthTable y m := by
  have hmf : makeFullYear y = y := by
    unfold makeFullYear
    rw [if_neg hy]
  have hdate : utcMillis y (m - 1) d 0 0 0 0 = makeDay y (m - 1) d * dayMs + 0 := by
    have e : utcMillis y (m - 1) d 0 0 0 0 =
        makeDay (makeFullYear y) (m - 1) d * dayMs +
          (((0 * 60 + 0) * 60 + 0) * 1000 + 0) := rfl
    rw [e, hmf]
    norm_num
  have h0 : DateTime.fromComponents y m d 0 0 0 0 =
      (if getUTCFullYear (utcMillis y (m - 1) d 0 0 0 0) ≠ y ∨
          getUTCMonth0 (utcMillis y (m - 1) d 0 0 0 0) ≠ m - 1 ∨
          getUTCDate (utcMillis y (m - 1) d 0 0 0 0) ≠ d then
        Except.error "Invalid date components"
      else Except.ok (utcMillis y (m - 1) d 0 0 0 0)) := rfl
  rw [hdate] at h0
  constructor
  · intro ⟨v, hv⟩
    by_cases hc : getUTCFullYear (makeDay y (m - 1) d * dayMs + 0) ≠ y ∨
        getUTCMonth0 (makeDay y (m - 1) d * dayMs + 0) ≠ m - 1 ∨
        getUTCDate (makeDay y (m - 1) d * dayMs + 0) ≠ d
    · rw [if_pos hc] at h0
      rw [h0] at hv
      exact Except.noConfusion hv
    · push_neg at hc
      obtain ⟨hc1, hc2, hc3⟩ := hc
      rw [getUTCFullYear_day] at hc1
      rw [getUTCMonth0_day] at hc2
      rw [getUTCDate_day] at hc3
      obtain ⟨v1, v2, v3, v4, v5⟩ := civil_valid (makeDay y (m - 1) d)
      have hcm : cMonth (makeDay y (m - 1) d) = m := by omega
      rw [hc1, hcm, hc3] at v4
      omega
  · intro ⟨hm1, hm2, hd1, hd2⟩
    have e2 := makeDay_norm y (m - 1) d (by omega) (by omega)
    have haff := dfc_day_affine y m d
    have hm0 : m - 1 + 1 = m := by omega
    rw [hm0] at e2
    have hzd : makeDay y (m - 1) d = daysFromCivil y m d := by omega
    obtain ⟨g1, g2, g3, g4⟩ := getters_struct hm1 hm2 hd1 hd2 (le_refl 0) (by decide)
    have hc : ¬ (getUTCFullYear (makeDay y (m - 1) d * dayMs + 0) ≠ y ∨
        getUTCMonth0 (makeDay y (m - 1) d * dayMs + 0) ≠ m - 1 ∨
        getUTCDate (makeDay y (m - 1) d * dayMs + 0) ≠ d) := by
      rw [hzd]
      push_neg
      exact ⟨g1, g2, g3⟩
    rw [if_neg hc] at h0
    exact ⟨_, h0⟩

/-- For a year in 0..99, the component factory always rejects: Date.UTC
shifts such a year to 1900..1999, so the components never round-trip. -/
theorem fromComponents_small (y m d : Int) (h0y : 0 ≤ y) (h1y : y ≤ 99) :
    DateTime.fromComponents y m d 0 0 0 0 = Except.error "Invalid date components" := by
  have hmf : makeFullYear y = 1900 + y := by
    unfold makeFullYear
    rw [if_pos ⟨h0y, h1y⟩]
  have hdate : utcMillis y (m - 1) d 0 0 0 0 =
      makeDay (1900 + y) (m - 1) d * dayMs + 0 := by
    have e : utcMillis y (m - 1) d 0 0 0 0 =
        makeDay (makeFullYear y) (m - 1) d * dayMs +
          (((0 * 60 + 0) * 60 + 0) * 1000 + 0) := rfl
    rw [e, hmf]
    norm_num
  have h0 : DateTime.fromComponents y m d 0 0 0 0 =
      (if getUTCFullYear (utcMillis y (m - 1) d 0 0 0 0) ≠ y ∨
          getUTCMonth0 (utcMillis y (m - 1) d 0 0 0 0) ≠ m - 1 ∨
          getUTCDate (utcMillis y (m - 1) d 0 0 0 0) ≠ d then
        Except.error "Invalid date components"
      else Except.ok (utcMillis y (m - 1) d 0 0 0 0)) := rfl
  rw [hdate] at h0
  have hc : getUTCFullYear (makeDay (1900 + y) (m - 1) d * dayMs + 0) ≠ y ∨
      getUTCMonth0 (makeDay (1900 + y) (m - 1) d * dayMs + 0) ≠ m - 1 ∨
      getUTCDate (makeDay (1900 + y) (m - 1) d * dayMs + 0) ≠ d := by
    by_contra hcc
    push_neg at hcc
    obtain ⟨hc1, hc2, hc3⟩ := hcc
    rw [getUTCFullYear_day] at hc1
    rw [getUTCMonth0_day] at hc2
    rw [getUTCDate_day] at hc3
    obtain ⟨v1, v2, v3, v4, v5⟩ := civil_valid (makeDay (1900 + y) (m - 1) d)
    have hm1 : 1 ≤ m := by omega
    have hm2 : m ≤ 12 := by omega
    have hd1 : 1 ≤ d := by omega
    have hcm : cMonth (makeDay (1900 + y) (m - 1) d) = m := by omega
    rw [hc1, hcm, hc3] at v4
    rw [hc1, hcm, hc3] at v5
    have e2 := makeDay_norm (1900 + y) (m - 1) d (by omega) (by omega)
    have hm0 : m - 1 + 1 = m := by omega
    rw [hm0] at e2
    have haff := dfc_day_affine (1900 + y) m d
    have hlt := dfc_lt_year hm1 hm2 hd1 v4 hm1 hm2 hd1
      (show y < 1900 + y by omega)
    omega
  rw [h0, if_pos hc]

/-- C7: the ordinal and component factories validate by reading the
built date back, which for years outside 0..99 rejects exactly the
out-of-range or non-round-tripping component bags, as claimed; but for
stated years 0..99 Date.UTC shifts the year by 1900 while the read-back
comparison uses the stated year, so every such bag is rejected even
when its components are valid.  The cited dayOfYear 367 example fails
as claimed. -/
theorem C7_component_validation :
    (∀ y doy : Int, ¬ (0 ≤ y ∧ y ≤ 99) →
      ((∃ v, DateTime.fromOrdinal y doy 0 0 0 0 = Except.ok v) ↔
        1 ≤ doy ∧ doy ≤ daysInYear y)) ∧
    (∀ y doy : Int, 0 ≤ y → y ≤ 99 → 1 ≤ doy →
      DateTime.fromOrdinal y doy 0 0 0 0 = Except.error "Invalid day of year") ∧
    (∀ y m d : Int, ¬ (0 ≤ y ∧ y ≤ 99) →
      ((∃ v, DateTime.fromComponents y m d 0 0 0 0 = Except.ok v) ↔
        1 ≤ m ∧ m ≤ 12 ∧ 1 ≤ d ∧ d ≤ daysInMonthTable y m)) ∧
    (∀ y m d : Int, 0 ≤ y → y ≤ 99 →
      DateTime.fromComponents y m d 0 0 0 0 =
        Except.error "Invalid date components") ∧
    DateTime.fromOrdinal 2024 367 0 0 0 0 = Except.error "Invalid day of year" :=
  ⟨fromOrdinal_spec, fromOrdinal_small, fromComponents_spec, fromComponents_small, rfl⟩

/-- C7 counterexample: dayOfYear 10 of year 50 is a perfectly valid
ordinal date (year 50 has 365 days), yet construction is rejected. -/
theorem C7_counterexample :
    DateTime.fromOrdinal 50 10 0 0 0 0 = Except.error "Invalid day of year" ∧
    (1 : Int) ≤ 10 ∧ (10 : Int) ≤ daysInYear 50 :=
  ⟨rfl, by decide, by decide⟩

/-- Witness for C7 at year 2024, dayOfYear 60 (which is accepted). -/
theorem C7_component_validation_witness :
    ¬ ((0 : Int) ≤ 2024 ∧ (2024 : Int) ≤ 99) ∧
    ((∃ v, DateTime.fromOrdinal 2024 60 0 0 0 0 = Except.ok v) ↔
      1 ≤ (60 : Int) ∧ (60 : Int) ≤ daysInYear 2024) :=
  ⟨by decide, C7_component_validation.1 2024 60 (by decide)⟩

end MillisJS
